import Mathlib

/-!
Shallow embedding of the AI-COO risk/insight engine (FastAPI backend) in Lean 4,
together with theorems checking the natural-language specification against it.

Modelling conventions:
* Python `datetime` values are modelled as integer seconds since an arbitrary
  epoch (`Timestamp := Int`).  All date arithmetic in the source happens through
  `timedelta.days`, which floors the span to whole days; this is `Int.fdiv ∘ (· - ·)`
  here.  Sub-second precision never matters for any statement below.
* Python `float` arithmetic is modelled with `ℚ`.  The engine only multiplies,
  adds, divides and clamps small decimal constants, so the rational model is the
  intended real-number semantics of the code.
* Mutating functions (the risk scorer writes `sprint.risk_score` etc.) are
  modelled as `Sprint → ... → Sprint` returning the updated record; read-only
  functions return their result and, where a frame property is claimed, a
  state-passing wrapper `Sprint → ... → Sprint × α` makes the (absent) writes
  explicit.
* Python string operations (`str.lower`, `in`, `str.strip`, `textwrap.dedent`)
  are implemented on `List Char` / `String` below, ASCII-faithful (the engine
  compares only ASCII keywords).
-/

/-- Timestamps: seconds since an arbitrary epoch (models `datetime.utcnow()` values). -/
abbrev Timestamp := Int

/-- Seconds in a day, used by the `timedelta.days` model. -/
def secPerDay : Int := 86400

/-- Model of `timedelta.days` for a span given in seconds: Python normalises a
timedelta so that `.days` is the floor of the span divided by one day. -/
def tdDays (span : Int) : Int := Int.fdiv span secPerDay

/-- Model of `datetime.date()`: the day number of a timestamp (floor). Comparing
or subtracting two Python `date`s compares/subtracts these day numbers. -/
def dateOf (t : Timestamp) : Int := Int.fdiv t secPerDay

/-- Model of `str.lower()` (ASCII-faithful; the engine only lowercases ASCII). -/
def pyLower (s : String) : String := ⟨s.data.map Char.toLower⟩

/-- Python `max(a, b)`: keeps the first argument unless the second is larger. -/
def pyMax (a b : ℚ) : ℚ := if a < b then b else a

/-- Python `min(a, b)`: keeps the first argument unless the second is smaller. -/
def pyMin (a b : ℚ) : ℚ := if b < a then b else a

/-- Python `max(a, b)` on integers (timestamps, day counts). -/
def pyMaxI (a b : Int) : Int := if a < b then b else a

/-- Decidable check that `needle` occurs at the start of `hay` (character lists). -/
def isPrefixL : List Char → List Char → Bool
  | [], _ => true
  | _ :: _, [] => false
  | a :: as, b :: bs => a == b && isPrefixL as bs

/-- Decidable substring search on character lists: does `needle` occur inside `hay`? -/
def hasSub (hay needle : List Char) : Bool :=
  match hay with
  | [] => needle.isEmpty
  | _ :: t => isPrefixL needle hay || hasSub t needle

/-- Model of the Python expression `needle in hay` for strings. -/
def pyInStr (needle hay : String) : Bool := hasSub hay.toList needle.toList

/-- Issue record (fields that the engine reads; `app/models.py`).  `assignee`,
`created_at` and `updated_at` are nullable in the source and are guarded with
truthiness checks, hence `Option` here (a present `datetime` is always truthy). -/
structure Issue where
  key : String
  title : String
  status : String
  assignee : Option String
  is_blocker : Bool
  created_at : Option Timestamp
  updated_at : Option Timestamp
  deriving Repr, DecidableEq

/-- Sprint record (fields that the engine reads/writes).  `start_date` and
`end_date` are populated on creation (`create_sprint` defaults them to now), so
they are modelled as present; `baseline_date`, `owner_email` and
`last_evaluated_at` are guarded with truthiness checks in the source, hence
`Option`. -/
structure Sprint where
  name : String
  start_date : Timestamp
  end_date : Timestamp
  baseline_date : Option Timestamp
  owner_email : Option String
  risk_score : ℚ
  risk_level : String
  last_evaluated_at : Option Timestamp
  issues : List Issue
  deriving Repr, DecidableEq

/-- The `total_days` divisor of the sprint risk scorer:
`total_days = (sprint.end_date - sprint.start_date).days or 1`
(`app/routers/sprints.py` line 81).  Python `x or 1` keeps `x` whenever it is
truthy, i.e. whenever the integer is nonzero — including negative values. -/
def totalDaysOf (s : Sprint) : Int :=
  let d := tdDays (s.end_date - s.start_date)
  if d = 0 then 1 else d

/-- Model of `compute_risk_for_sprint` (`app/routers/sprints.py` lines 58-102).
The Python function mutates `sprint` in place; here it returns the updated
record.  `now` is the `datetime.utcnow()` read at entry. -/
def compute_risk_for_sprint (s : Sprint) (now : Timestamp) : Sprint :=
  let total_issues := s.issues.length
  if total_issues = 0 then
    { s with risk_score := 0, risk_level := "low", last_evaluated_at := some now }
  else
    let incomplete :=
      s.issues.filter (fun i => !(["done", "resolved", "closed"].contains (pyLower i.status)))
    let incomplete_ratio : ℚ := (incomplete.length : ℚ) / (total_issues : ℚ)
    let total_days : Int := totalDaysOf s
    let days_left : Int := tdDays (s.end_date - now)
    let days_progress : ℚ :=
      pyMax 0 (pyMin 1 (((total_days : ℚ) - (days_left : ℚ)) / (total_days : ℚ)))
    let blockers := s.issues.filter (fun i => i.is_blocker)
    let blocker_factor : ℚ := 0.1 * (blockers.length : ℚ)
    let risk_score : ℚ := incomplete_ratio * 0.6 + days_progress * 0.3 + blocker_factor
    let risk_score : ℚ := pyMax 0 (pyMin 1 risk_score)
    let level : String :=
      if risk_score > 0.7 then "high"
      else if risk_score > 0.4 then "medium"
      else "low"
    { s with risk_score := risk_score, risk_level := level, last_evaluated_at := some now }

/-- Transient alert record (`SprintAlert` schema). -/
structure SprintAlert where
  type : String
  level : String
  message : String
  deriving Repr, DecidableEq

/-- Python truthiness of an optional string: `None` and `""` are falsy. -/
def pyTruthyStr : Option String → Bool
  | none => false
  | some s => !(s == "")

/-- Increment a key's count in an insertion-ordered association list, appending
the key at the end on first sight (Python dict update semantics). -/
def bumpCount (counts : List (String × Nat)) (a : String) : List (String × Nat) :=
  match counts with
  | [] => [(a, 1)]
  | (k, n) :: rest => if k = a then (k, n + 1) :: rest else (k, n) :: bumpCount rest a

/-- Insertion-ordered counting of open issues per truthy assignee, modelling the
Python dict build in `generate_alerts_for_sprint` (lines 255-259).  Python dicts
preserve insertion order; the association-list fold does the same here. -/
def countAssignees (issues : List Issue) : List (String × Nat) :=
  issues.foldl (fun acc i =>
    match i.assignee with
    | none => acc
    | some a => if a = "" then acc else bumpCount acc a) []

/-- Model of `generate_alerts_for_sprint` (`app/routers/sprints.py` lines 186-272).
The source appends alerts to a list in four sections (risk, blockers, deadline,
overloaded assignees); the result is the concatenation in that order. -/
def generate_alerts_for_sprint (s : Sprint) (now : Timestamp) : List SprintAlert :=
  let issues := s.issues
  let open_issues :=
    issues.filter (fun i => !(["done", "resolved", "closed"].contains (pyLower i.status)))
  let blockers := open_issues.filter (fun i => i.is_blocker)
  let riskPart : List SprintAlert :=
    if s.risk_level = "high" then
      [⟨"risk", "critical",
        "Sprint \x27" ++ s.name ++ "\x27 is at HIGH risk based on current progress vs. time."⟩]
    else if s.risk_level = "medium" then
      [⟨"risk", "warning",
        "Sprint \x27" ++ s.name ++ "\x27 is at MEDIUM risk and should be monitored closely."⟩]
    else []
  let blockerPart : List SprintAlert :=
    blockers.map (fun blk =>
      let age : Int :=
        match blk.updated_at with
        | some u => now - u
        | none =>
          match blk.created_at with
          | some c => now - c
          | none => 0
      if age ≥ secPerDay then
        ⟨"blocker", "critical",
          "Blocker \x27" ++ blk.key ++ ": " ++ blk.title ++ "\x27 has been open for about " ++
            toString (tdDays age) ++ " day(s). It may be blocking other work."⟩
      else
        ⟨"blocker", "warning",
          "Blocker \x27" ++ blk.key ++ ": " ++ blk.title ++
            "\x27 is still open and should be prioritised."⟩)
  let days_left : Int := tdDays (s.end_date - now)
  let deadlinePart : List SprintAlert :=
    if days_left ≤ 2 ∧ days_left ≥ 0 ∧ open_issues ≠ [] then
      [⟨"deadline", "warning",
        "Sprint ends in " ++ toString days_left ++ " day(s) and there are still " ++
          toString open_issues.length ++ " open issue(s)."⟩]
    else if days_left < 0 ∧ open_issues ≠ [] then
      [⟨"deadline", "critical",
        "Sprint has passed its end date and there are still " ++
          toString open_issues.length ++ " open issue(s)."⟩]
    else []
  let assignee_counts := countAssignees open_issues
  let overloaded := (assignee_counts.filter (fun p => p.2 ≥ 4)).map (fun p => p.1)
  let assigneePart : List SprintAlert :=
    overloaded.map (fun a =>
      ⟨"assignee", "info",
        a ++ " currently has " ++ toString ((assignee_counts.lookup a).getD 0) ++
          " open issues in this sprint; consider redistributing workload."⟩)
  riskPart ++ blockerPart ++ deadlinePart ++ assigneePart

/-- Transient snapshot record (`SprintSnapshot` schema). -/
structure SprintSnapshot where
  tasks_total : Nat
  tasks_completed : Nat
  risks_open : Nat
  days_active : Int
  deriving Repr, DecidableEq

/-- Transient insights record (`SprintInsights` schema). -/
structure SprintInsights where
  next_steps : List String
  triggered_risks : List String
  data_needed : List String
  snapshot : SprintSnapshot
  label : String
  deriving Repr, DecidableEq

/-- Model of `_issue_status` (`app/routers/sprints.py` lines 275-276). -/
def _issue_status (i : Issue) : String := pyLower i.status

/-- Model of `_last_activity_for_sprint` (lines 279-291): the max over issue
timestamps, `last_evaluated_at` and `start_date`; `now` is the
`datetime.utcnow()` fallback for the (here unreachable, since `start_date` is
always appended) empty-candidate case. -/
def _last_activity_for_sprint (s : Sprint) (now : Timestamp) : Timestamp :=
  let issueCands := s.issues.flatMap (fun i =>
    (match i.updated_at with | some u => [u] | none => []) ++
    (match i.created_at with | some c => [c] | none => []))
  let candidates := issueCands ++
    (match s.last_evaluated_at with | some t => [t] | none => []) ++ [s.start_date]
  match candidates with
  | [] => now
  | c :: cs => cs.foldl pyMaxI c

/-- Model of `build_sprint_insights` (`app/routers/sprints.py` lines 294-362).
Note the done-like status set here is `{done, resolved, closed, completed}` —
one element larger than the risk scorer's set.  The source guards
`if sprint.start_date` / `if sprint.end_date`; a present datetime is always
truthy, so those guards are taken in this model (dates are non-null, see
`Sprint`). -/
def build_sprint_insights (s : Sprint) (now : Timestamp) : SprintInsights :=
  let issues := s.issues
  let done_like : List String := ["done", "resolved", "closed", "completed"]
  let open_issues := issues.filter (fun i => !(done_like.contains (_issue_status i)))
  let blockers := issues.filter (fun i => i.is_blocker)
  let unassigned := issues.filter (fun i => !pyTruthyStr i.assignee)
  let total_issues := issues.length
  let completed_issues := (issues.filter (fun i => done_like.contains (_issue_status i))).length
  let progress_pct : ℚ :=
    if total_issues ≠ 0 then (completed_issues : ℚ) / (total_issues : ℚ) * 100 else 0
  let last_activity := _last_activity_for_sprint s now
  let next_steps : List String :=
    (if !pyTruthyStr s.owner_email then
      ["Assign an owner to this sprint."] else []) ++
    (if total_issues = 0 then ["Add at least one task to define execution scope."] else []) ++
    (if open_issues ≠ [] then ["Review and prioritize open tasks."] else []) ++
    (if blockers = [] then ["Identify and log potential risks for this sprint."] else []) ++
    (if last_activity < now - 7 * secPerDay then
      ["Review sprint status — no updates in the last 7 days."] else [])
  let triggered_risks : List String :=
    (if dateOf s.start_date < dateOf now - 14 then
      (if progress_pct < 30 then ["Sprint has low progress relative to its age."] else [])
    else []) ++
    (if unassigned ≠ [] then ["One or more tasks are unassigned."] else []) ++
    (if blockers ≠ [] then ["Blocked tasks may delay sprint delivery."] else []) ++
    (if s.risk_level = "high" then ["High-severity risks require mitigation review."] else []) ++
    (if last_activity < now - 10 * secPerDay then
      ["No recent activity detected on this sprint."] else [])
  let titles := issues.map (fun i => pyLower i.title)
  let has_data_attachment := titles.any (fun t =>
    pyInStr "data" t || pyInStr "dashboard" t || pyInStr "report" t)
  let has_analysis_task := titles.any (fun t =>
    pyInStr "analysis" t || pyInStr "investigation" t)
  let data_needed : List String :=
    (if total_issues = 0 then ["Define KPIs for this sprint."] else []) ++
    (if !has_data_attachment then ["Upload or link relevant data sources."] else []) ++
    (if has_analysis_task ∧ !has_data_attachment then
      ["Attach data required for analysis tasks."] else []) ++
    (if s.baseline_date = none then
      ["Set a baseline to measure progress against target."] else [])
  let snapshot : SprintSnapshot :=
    { tasks_total := total_issues
      tasks_completed := completed_issues
      risks_open := triggered_risks.length
      days_active := pyMaxI 0 (dateOf now - dateOf s.start_date) }
  { next_steps := next_steps
    triggered_risks := triggered_risks
    data_needed := data_needed
    snapshot := snapshot
    label := "Generated from current sprint state" }

/-- State-passing form of `generate_alerts_for_sprint`: the Python function takes
the sprint object and performs no attribute assignment on it, so the shallow
embedding of its effect on the sprint state is the identity. -/
def generate_alerts_for_sprint_state (s : Sprint) (now : Timestamp) :
    Sprint × List SprintAlert :=
  (s, generate_alerts_for_sprint s now)

/-- State-passing form of `build_sprint_insights`: the source performs no
attribute assignment on the sprint, so the sprint component is passed through. -/
def build_sprint_insights_state (s : Sprint) (now : Timestamp) :
    Sprint × SprintInsights :=
  (s, build_sprint_insights s now)

/-! ### Helper lemmas -/

theorem pyMax_zero_nonneg (x : ℚ) : 0 ≤ pyMax 0 x := by
  unfold pyMax; split <;> linarith

theorem pyClamp01_le_one (x : ℚ) : pyMax 0 (pyMin 1 x) ≤ 1 := by
  unfold pyMax pyMin
  by_cases h : x < 1 <;> simp [h] <;> split <;> linarith

theorem riskBucket_iffs (rs : ℚ) :
    ((if rs > 0.7 then "high" else if rs > 0.4 then "medium" else "low") = "high" ↔
      0.7 < rs) ∧
    ((if rs > 0.7 then "high" else if rs > 0.4 then "medium" else "low") = "medium" ↔
      0.4 < rs ∧ rs ≤ 0.7) ∧
    ((if rs > 0.7 then "high" else if rs > 0.4 then "medium" else "low") = "low" ↔
      rs ≤ 0.4) := by
  by_cases h7 : (0.7 : ℚ) < rs
  · have h4 : (0.4 : ℚ) < rs := by linarith
    have h4n : ¬rs ≤ (0.4 : ℚ) := not_le.2 h4
    have h7n : ¬rs ≤ (0.7 : ℚ) := not_le.2 h7
    simp +decide [h7, h4, h4n, h7n]
  · by_cases h4 : (0.4 : ℚ) < rs
    · have h7le : rs ≤ (0.7 : ℚ) := not_lt.1 h7
      have h4n : ¬rs ≤ (0.4 : ℚ) := not_le.2 h4
      simp +decide [h7, h4, h7le, h4n]
    · have h4le : rs ≤ (0.4 : ℚ) := not_lt.1 h4
      simp +decide [h7, h4, h4le]

/-! ### Concrete inputs used by witnesses and counterexamples -/

/-- Issue constructor used by the concrete sprints below. -/
def mkIssue (st : String) (blk : Bool) : Issue :=
  { key := "SPR-1-1", title := "t", status := st, assignee := none,
    is_blocker := blk, created_at := some 0, updated_at := some 0 }

/-- The spec scenario sprint: start 2024-01-01, end 2024-01-11 (epoch chosen at
the start date, so `start_date = 0` and `end_date = 10` days later), four issues
all with status "open", one of them a blocker. -/
def scenarioSprint : Sprint :=
  { name := "S", start_date := 0, end_date := 864000, baseline_date := none,
    owner_email := some "o@x.com", risk_score := 0, risk_level := "low",
    last_evaluated_at := none,
    issues := [mkIssue "open" true, mkIssue "open" false, mkIssue "open" false,
      mkIssue "open" false] }

/-- The spec scenario evaluation instant 2024-01-06, i.e. 5 days after the start. -/
def scenarioNow : Timestamp := 432000

/-! ### C1 -/

/-- C1: for a sprint with at least one issue and `start_date ≤ end_date`, the
risk scorer produces `clamp(incomplete_ratio*0.6 + days_progress*0.3 +
0.1*blockers, 0, 1)`, a value in `[0, 1]`, with the level bucketing
high > 0.7 ≥ medium > 0.4 ≥ low; and on the spec scenario it yields 0.85/high. -/
theorem compute_risk_formula_buckets_and_scenario (s : Sprint) (now : Timestamp)
    (hne : s.issues ≠ []) (hdates : s.start_date ≤ s.end_date) :
    (compute_risk_for_sprint s now).risk_score =
      pyMax 0 (pyMin 1 (
        ((s.issues.filter (fun i =>
            !(["done", "resolved", "closed"].contains (pyLower i.status)))).length : ℚ)
          / (s.issues.length : ℚ) * 0.6
        + pyMax 0 (pyMin 1 (((totalDaysOf s : ℚ) - (tdDays (s.end_date - now) : ℚ))
            / (totalDaysOf s : ℚ))) * 0.3
        + 0.1 * ((s.issues.filter (fun i => i.is_blocker)).length : ℚ))) ∧
    0 ≤ (compute_risk_for_sprint s now).risk_score ∧
    (compute_risk_for_sprint s now).risk_score ≤ 1 ∧
    ((compute_risk_for_sprint s now).risk_level = "high" ↔
      0.7 < (compute_risk_for_sprint s now).risk_score) ∧
    ((compute_risk_for_sprint s now).risk_level = "medium" ↔
      0.4 < (compute_risk_for_sprint s now).risk_score ∧
        (compute_risk_for_sprint s now).risk_score ≤ 0.7) ∧
    ((compute_risk_for_sprint s now).risk_level = "low" ↔
      (compute_risk_for_sprint s now).risk_score ≤ 0.4) ∧
    (compute_risk_for_sprint scenarioSprint scenarioNow).risk_score = 0.85 ∧
    (compute_risk_for_sprint scenarioSprint scenarioNow).risk_level = "high" := by
  have hlen : ¬(s.issues.length = 0) := by
    simpa [List.length_eq_zero] using hne
  have hscen : (compute_risk_for_sprint scenarioSprint scenarioNow).risk_score = 0.85 ∧
      (compute_risk_for_sprint scenarioSprint scenarioNow).risk_level = "high" := by
    have h1 : Int.fdiv 864000 86400 = 10 := by decide
    have h2 : Int.fdiv 432000 86400 = 5 := by decide
    norm_num +decide [compute_risk_for_sprint, scenarioSprint, scenarioNow, mkIssue,
      totalDaysOf, tdDays, secPerDay, pyMax, pyMin, pyLower, List.filter, h1, h2]
  simp only [compute_risk_for_sprint, hlen, if_false]
  refine ⟨?_, ?_, ?_, ?_, ?_, ?_, hscen.1, hscen.2⟩
  · first | rfl | trivial
  · exact pyMax_zero_nonneg _
  · exact pyClamp01_le_one _
  · exact (riskBucket_iffs _).1
  · exact (riskBucket_iffs _).2.1
  · exact (riskBucket_iffs _).2.2

/-- Witness for C1 at the spec scenario: hypotheses hold and the instantiated
conclusion follows from the theorem. -/
theorem compute_risk_formula_witness :
    scenarioSprint.issues ≠ [] ∧ scenarioSprint.start_date ≤ scenarioSprint.end_date ∧
    (0 ≤ (compute_risk_for_sprint scenarioSprint scenarioNow).risk_score ∧
      (compute_risk_for_sprint scenarioSprint scenarioNow).risk_score = 0.85 ∧
      (compute_risk_for_sprint scenarioSprint scenarioNow).risk_level = "high") :=
  ⟨by decide, by decide,
    (compute_risk_formula_buckets_and_scenario scenarioSprint scenarioNow
      (by decide) (by decide)).2.1,
    (compute_risk_formula_buckets_and_scenario scenarioSprint scenarioNow
      (by decide) (by decide)).2.2.2.2.2.2.1,
    (compute_risk_formula_buckets_and_scenario scenarioSprint scenarioNow
      (by decide) (by decide)).2.2.2.2.2.2.2⟩

/-! ### C2 -/

/-- C2: with an empty issue list the risk scorer sets `risk_score = 0.0`,
`risk_level = "low"`, updates `last_evaluated_at`, and leaves every other
sprint field unchanged, regardless of the dates. -/
theorem compute_risk_zero_issues (s : Sprint) (now : Timestamp) (h : s.issues = []) :
    compute_risk_for_sprint s now =
      { s with risk_score := 0, risk_level := "low", last_evaluated_at := some now } := by
  simp [compute_risk_for_sprint, h]

/-- Sprint with no issues (and deliberately non-default risk fields, so that the
C2 witness exercises the overwrite). -/
def emptySprint : Sprint :=
  { name := "E", start_date := 0, end_date := 86400, baseline_date := none,
    owner_email := none, risk_score := 1/2, risk_level := "medium",
    last_evaluated_at := none, issues := [] }

/-- Witness for C2 at a concrete empty sprint. -/
theorem compute_risk_zero_issues_witness :
    emptySprint.issues = [] ∧
    compute_risk_for_sprint emptySprint 5 =
      { emptySprint with
        risk_score := 0
        risk_level := "low"
        last_evaluated_at := some 5 } :=
  ⟨rfl, compute_risk_zero_issues emptySprint 5 rfl⟩

/-! ### C3 -/

/-- Sprint whose end date precedes its start date by two days. -/
def negSpanSprint : Sprint :=
  { name := "N", start_date := 172800, end_date := 0, baseline_date := none,
    owner_email := none, risk_score := 0, risk_level := "low",
    last_evaluated_at := none, issues := [mkIssue "open" false] }

/-- Counterexample to C3: for a sprint with one issue whose end date is two days
before its start date, the `total_days` divisor is `-2`, not the claimed floor
to a minimum of 1 — `x or 1` in Python only replaces a zero day count, a
negative one is truthy and passes through. -/
theorem total_days_negative_counterexample :
    negSpanSprint.issues ≠ [] ∧
    totalDaysOf negSpanSprint = -2 ∧ totalDaysOf negSpanSprint < 1 := by
  refine ⟨by decide, by decide, by decide⟩

/-- Amended C3: `total_days` equals the raw day count of the span whenever that
count is nonzero (including negative counts for reversed spans) and 1 when the
count is zero; in particular it is never zero, so the scorer's division is
never a division by zero (and the total Lean model shows no exception path). -/
theorem total_days_never_zero (s : Sprint) :
    totalDaysOf s ≠ 0 ∧
    (totalDaysOf s = tdDays (s.end_date - s.start_date) ∨
      (tdDays (s.end_date - s.start_date) = 0 ∧ totalDaysOf s = 1)) := by
  unfold totalDaysOf
  by_cases h : tdDays (s.end_date - s.start_date) = 0
  · simp [h]
  · simp [h]

/-! ### C4 -/

/-- Sprint with a single issue whose status is "completed". -/
def completedIssueSprint : Sprint :=
  { name := "C", start_date := 0, end_date := 86400, baseline_date := none,
    owner_email := some "o@x.com", risk_score := 0, risk_level := "low",
    last_evaluated_at := none, issues := [mkIssue "completed" false] }

/-- Counterexample to C4: the insight synthesizer counts a "completed" issue as
complete (its done-like set also contains "completed"), while the risk scorer's
set `{done, resolved, closed}` counts the same issue as incomplete. -/
theorem done_like_counterexample :
    (build_sprint_insights completedIssueSprint 0).snapshot.tasks_completed = 1 ∧
    (completedIssueSprint.issues.filter (fun i =>
      !(["done", "resolved", "closed"].contains (pyLower i.status)))).length = 1 := by
  refine ⟨by decide, by decide⟩

/-- Amended C4: the risk scorer treats an issue as complete iff its lower-cased
status is in `{done, resolved, closed}`, but the insight synthesizer uses the
larger set `{done, resolved, closed, completed}`. -/
theorem done_like_sets_differ (s : Sprint) (now : Timestamp) :
    (build_sprint_insights s now).snapshot.tasks_completed =
      (s.issues.filter (fun i =>
        (["done", "resolved", "closed", "completed"].contains (pyLower i.status)))).length ∧
    (s.issues ≠ [] → (compute_risk_for_sprint s now).risk_score =
      pyMax 0 (pyMin 1 (
        ((s.issues.filter (fun i =>
            !(["done", "resolved", "closed"].contains (pyLower i.status)))).length : ℚ)
          / (s.issues.length : ℚ) * 0.6
        + pyMax 0 (pyMin 1 (((totalDaysOf s : ℚ) - (tdDays (s.end_date - now) : ℚ))
            / (totalDaysOf s : ℚ))) * 0.3
        + 0.1 * ((s.issues.filter (fun i => i.is_blocker)).length : ℚ)))) := by
  constructor
  · simp [build_sprint_insights, _issue_status]
  · intro hne
    have hlen : ¬(s.issues.length = 0) := by simpa [List.length_eq_zero] using hne
    simp only [compute_risk_for_sprint, hlen, if_false]

/-- Witness for C4's amended statement at the concrete "completed"-status sprint. -/
theorem done_like_sets_differ_witness :
    completedIssueSprint.issues ≠ [] ∧
    (compute_risk_for_sprint completedIssueSprint 0).risk_score =
      pyMax 0 (pyMin 1 (
        ((completedIssueSprint.issues.filter (fun i =>
            !(["done", "resolved", "closed"].contains (pyLower i.status)))).length : ℚ)
          / (completedIssueSprint.issues.length : ℚ) * 0.6
        + pyMax 0 (pyMin 1 (((totalDaysOf completedIssueSprint : ℚ)
            - (tdDays (completedIssueSprint.end_date - 0) : ℚ))
            / (totalDaysOf completedIssueSprint : ℚ))) * 0.3
        + 0.1 * ((completedIssueSprint.issues.filter (fun i => i.is_blocker)).length : ℚ))) :=
  ⟨by decide, (done_like_sets_differ completedIssueSprint 0).2 (by decide)⟩

/-! ### C8 -/

theorem filter_type_map_eq_nil {α : Type} (f : α → SprintAlert) (t : String)
    (h : ∀ a, (f a).type ≠ t) (l : List α) :
    (l.map f).filter (fun x => x.type == t) = [] := by
  induction l with
  | nil => rfl
  | cons a l ih => simp [h a, ih]

theorem filter_type_ite3_eq_nil {c1 c2 : Prop} [Decidable c1] [Decidable c2]
    (x1 x2 : SprintAlert) (t : String) (h1 : x1.type ≠ t) (h2 : x2.type ≠ t) :
    ((if c1 then [x1] else if c2 then [x2] else []).filter
      (fun x => x.type == t)) = [] := by
  split
  · simp [h1]
  · split
    · simp [h2]
    · rfl

/-- C8: for a sprint whose stored `risk_level` is "high" and whose issue list
contains exactly one open blocker, that blocker last updated two days before
`now`, the alert generator emits exactly one alert of type "risk" (level
"critical") and exactly one alert of type "blocker" (level "critical"). -/
theorem alerts_high_risk_one_blocker (s : Sprint) (now : Timestamp) (b : Issue)
    (hhigh : s.risk_level = "high")
    (hblk : ((s.issues.filter (fun i =>
        !(["done", "resolved", "closed"].contains (pyLower i.status)))).filter
          (fun i => i.is_blocker)) = [b])
    (hupd : b.updated_at = some (now - 2 * secPerDay)) :
    ((generate_alerts_for_sprint s now).filter (fun a => a.type == "risk")).map
        SprintAlert.level = ["critical"] ∧
    ((generate_alerts_for_sprint s now).filter (fun a => a.type == "blocker")).map
        SprintAlert.level = ["critical"] := by
  have hage : now - (now - 2 * secPerDay) ≥ secPerDay := by
    show (secPerDay : Int) ≤ now - (now - 2 * secPerDay)
    unfold secPerDay
    omega
  simp only [generate_alerts_for_sprint]
  rw [hblk]
  constructor <;>
    simp +decide [hhigh, hupd, hage,
      filter_type_map_eq_nil, filter_type_ite3_eq_nil, List.filter_append]

/-- Two days in seconds, for the C8 witness sprint. -/
def twoDaysAgo : Timestamp := -172800

/-- The blocker issue of the C8 witness sprint. -/
def witnessBlocker : Issue :=
  { key := "SPR-1-1", title := "b", status := "open", assignee := none,
    is_blocker := true, created_at := some twoDaysAgo, updated_at := some twoDaysAgo }

/-- Sprint at high stored risk with exactly one open blocker updated two days
before the witness evaluation instant (now = 0). -/
def highRiskBlockerSprint : Sprint :=
  { name := "H", start_date := -864000, end_date := 864000, baseline_date := none,
    owner_email := some "o@x.com", risk_score := 17/20, risk_level := "high",
    last_evaluated_at := none,
    issues := [witnessBlocker, mkIssue "done" false] }

/-- Witness for C8 at the concrete high-risk sprint. -/
theorem alerts_high_risk_one_blocker_witness :
    highRiskBlockerSprint.risk_level = "high" ∧
    ((generate_alerts_for_sprint highRiskBlockerSprint 0).filter
        (fun a => a.type == "risk")).map SprintAlert.level = ["critical"] ∧
    ((generate_alerts_for_sprint highRiskBlockerSprint 0).filter
        (fun a => a.type == "blocker")).map SprintAlert.level = ["critical"] :=
  ⟨rfl,
    (alerts_high_risk_one_blocker highRiskBlockerSprint 0 witnessBlocker rfl
      (by decide) (by decide)).1,
    (alerts_high_risk_one_blocker highRiskBlockerSprint 0 witnessBlocker rfl
      (by decide) (by decide)).2⟩

/-! ### C9 -/

/-- C9: neither the alert generator nor the insight synthesizer mutates the
sprint: the state components of their state-passing embeddings are the
unchanged input sprint (the source performs no attribute writes). -/
theorem alerts_and_insights_preserve_sprint (s : Sprint) (now : Timestamp) :
    (generate_alerts_for_sprint_state s now).1 = s ∧
    (build_sprint_insights_state s now).1 = s :=
  ⟨rfl, rfl⟩

/-! ### Task model and Python value model (`app/services/intelligence.py`) -/

/-- JSON-ish metadata value as stored in `Task.metadata_json` (an open key-value
map).  Numbers are rationals (the float model), plus strings, lists and null. -/
inductive Val where
  | vnum (q : ℚ)
  | vstr (s : String)
  | vlist (l : List Val)
  | vnone

namespace AiCoo

/-- Task record (fields read by the intelligence/task-logic engines;
`app/models.py` plus the dynamically added `depends_on` relation, which
`getattr(task, "depends_on", []) or []` normalises to a list).  The name lives
in a namespace because core Lean already declares `Task`. -/
structure Task where
  id : Nat
  title : String
  status : String
  result_text : Option String
  metadata_json : List (String × Val)
  owner_email : Option String
  squad : Option String
  depends_on : List Nat

end AiCoo

open AiCoo (Task)

/-- Python `f"{x}"` rendering of a nullable text column: `None` renders as the
four-character string "None". -/
def pyStrRender : Option String → String
  | some s => s
  | none => "None"

/-- ASCII whitespace for `str.split()` / `str.strip()` (Python also strips some
unicode whitespace, which the engine never encounters). -/
def pyIsWs (c : Char) : Bool :=
  c == ' ' || c == '\t' || c == '\n' || c == '\r' || c == '\x0b' || c == '\x0c'

/-- Tokeniser behind Python `str.split()` with no arguments: splits on runs of
whitespace and never yields empty tokens.  `acc` holds the current token in
reverse. -/
def pySplitWsGo : List Char → List Char → List (List Char)
  | [], acc => if acc.isEmpty then [] else [acc.reverse]
  | c :: rest, acc =>
    if pyIsWs c then
      if acc.isEmpty then pySplitWsGo rest [] else acc.reverse :: pySplitWsGo rest []
    else pySplitWsGo rest (c :: acc)

/-- Model of Python `s.split()` (whitespace tokenisation). -/
def pySplitWs (s : String) : List String := (pySplitWsGo s.toList []).map (⟨·⟩)

/-- Digits to a natural number (decimal). -/
def digitsToNat (ds : List Char) : Nat :=
  ds.foldl (fun n c => 10 * n + (c.toNat - '0'.toNat)) 0

/-- Model of Python `float(string)` parsing: surrounding whitespace, optional
sign, decimal digits with optional fraction part and optional exponent.  The
rarely used forms (`inf`, `nan`, digit underscores) are not modelled; on any
other non-numeric string the parse fails, as `float()` does with `ValueError`. -/
def pyParseFloat (s : String) : Option ℚ :=
  let cs := (s.toList.dropWhile pyIsWs).reverse.dropWhile pyIsWs |>.reverse
  let (sign, cs) : ℚ × List Char :=
    match cs with
    | '+' :: rest => (1, rest)
    | '-' :: rest => (-1, rest)
    | _ => (1, cs)
  let intDigits := cs.takeWhile Char.isDigit
  let cs := cs.dropWhile Char.isDigit
  let (fracDigits, cs) : List Char × List Char :=
    match cs with
    | '.' :: rest => (rest.takeWhile Char.isDigit, rest.dropWhile Char.isDigit)
    | _ => ([], cs)
  if intDigits.isEmpty ∧ fracDigits.isEmpty then none
  else
    let mant : ℚ := (digitsToNat intDigits : ℚ) +
      (digitsToNat fracDigits : ℚ) / ((10 : ℚ) ^ fracDigits.length)
    match cs with
    | [] => some (sign * mant)
    | e :: rest =>
      if e == 'e' || e == 'E' then
        let (esign, rest) : Int × List Char :=
          match rest with
          | '+' :: r => (1, r)
          | '-' :: r => (-1, r)
          | _ => (1, rest)
        let expDigits := rest.takeWhile Char.isDigit
        let rest := rest.dropWhile Char.isDigit
        if expDigits.isEmpty ∨ ¬rest.isEmpty then none
        else
          let ev := digitsToNat expDigits
          if esign = 1 then some (sign * mant * (10 : ℚ) ^ ev)
          else some (sign * mant / (10 : ℚ) ^ ev)
      else none

/-- Model of Python `float(value)` on a metadata value: numbers pass through,
strings are parsed (raising `ValueError` on failure, modelled as `.error`),
other types raise `TypeError`. -/
def pyFloat : Val → Except String ℚ
  | .vnum q => .ok q
  | .vstr s =>
    match pyParseFloat s with
    | some q => .ok q
    | none => .error ("could not convert string to float: \x27" ++ s ++ "\x27")
  | .vlist _ => .error "float() argument must be a string or a real number, not \x27list\x27"
  | .vnone => .error "float() argument must be a string or a real number, not \x27NoneType\x27"

/-- Model of Python `dict.get(key, default)` on the metadata map. -/
def pyGetD (m : List (String × Val)) (k : String) (d : Val) : Val :=
  (List.lookup k m).getD d

/-- Model of `classify_priority` (`app/services/intelligence.py` lines 171-191).
The source applies `float(...)` directly to each `metadata.get(key, 0.5)`
result, so a present-but-unparsable value propagates the exception: the
function is `Except`-valued here. -/
def classify_priority (task : Task) : Except String String := do
  let metadata := task.metadata_json
  let impact ← pyFloat (pyGetD metadata "impact" (.vnum (1/2)))
  let urgency ← pyFloat (pyGetD metadata "urgency" (.vnum (1/2)))
  let okr_alignment ← pyFloat (pyGetD metadata "okr_alignment" (.vnum (1/2)))
  let user_importance ← pyFloat (pyGetD metadata "user_importance" (.vnum (1/2)))
  let dependency_penalty : ℚ := 0.1 * (task.depends_on.length : ℚ)
  let score : ℚ :=
    impact * 0.3 + urgency * 0.3 + okr_alignment * 0.2 + user_importance * 0.15
  let score : ℚ := score - dependency_penalty
  let score : ℚ := pyMax 0 (pyMin 1 score)
  if score ≥ 0.8 then return "CRITICAL"
  else if score ≥ 0.6 then return "HIGH"
  else if score ≥ 0.35 then return "MEDIUM"
  else return "LOW"

/-- Model of `estimate_complexity` (lines 111-114): token count of
`f"{task.title} {task.result_text}"` divided by 120, capped at 1. -/
def estimate_complexity (task : Task) : ℚ :=
  let text := task.title ++ " " ++ pyStrRender task.result_text
  let tokens := pySplitWs text
  pyMin 1 ((tokens.length : ℚ) / 120)

/-- The status penalty used by `predict_risk_profile` (line 131):
0.15 for pending/in_progress, 0.05 for every other status. -/
def statusPenaltyOf (task : Task) : ℚ :=
  if task.status = "pending" ∨ task.status = "in_progress" then 0.15 else 0.05

/-- Banker's rounding to an integer (round half to even), the semantics of
Python's built-in `round`. -/
def roundHalfEven (x : ℚ) : Int :=
  let n := ⌊x⌋
  let f := x - (n : ℚ)
  if f < 1/2 then n
  else if 1/2 < f then n + 1
  else if n % 2 = 0 then n else n + 1

/-- Model of Python `round(x, 3)`. -/
def pyRound3 (x : ℚ) : ℚ := (roundHalfEven (x * 1000) : ℚ) / 1000

/-- Result record of `predict_risk_profile` (the returned dict's numeric fields
plus the reasons list). -/
structure RiskProfile where
  risk_score : ℚ
  delay_probability : ℚ
  dependency_risk : ℚ
  overload_risk : ℚ
  complexity_estimate : ℚ
  reasons : List String

/-- Model of `predict_risk_profile` (`app/services/intelligence.py` lines
117-153). -/
def predict_risk_profile (task : Task) (related_tasks : List Task) : RiskProfile :=
  let related_list := related_tasks
  let depends_on := task.depends_on
  let dependency_risk : ℚ := pyMin 1 ((depends_on.length : ℚ) * 0.15)
  let overload_risk : ℚ :=
    if pyTruthyStr task.owner_email then
      let active_by_owner := related_list.filter (fun t =>
        t.owner_email == task.owner_email && !(t.status == "completed"))
      pyMin 1 (((pyMaxI 0 ((active_by_owner.length : Int) - 3)) : ℚ) * 0.2)
    else 0
  let status_penalty : ℚ := statusPenaltyOf task
  let complexity : ℚ := estimate_complexity task
  let delay_probability : ℚ :=
    pyMin 1 (status_penalty + dependency_risk + overload_risk + complexity * 0.4)
  let risk_score : ℚ :=
    pyRound3 (delay_probability * 0.6 + overload_risk * 0.2 + dependency_risk * 0.2)
  let reasons : List String :=
    (if dependency_risk > 0 then ["Multiple dependencies could block delivery"] else []) ++
    (if overload_risk > 0 then
      ["Owner has several active items; consider load balancing"] else []) ++
    (if complexity > 0.5 then
      ["Task description is lengthy/complex; buffer time recommended"] else [])
  let reasons :=
    if reasons = [] then ["No major risk signals detected; keep monitoring"] else reasons
  { risk_score := risk_score
    delay_probability := pyRound3 delay_probability
    dependency_risk := pyRound3 dependency_risk
    overload_risk := pyRound3 overload_risk
    complexity_estimate := pyRound3 complexity
    reasons := reasons }

/-! ### Helper lemmas for clamps and banker's rounding -/

theorem pyMin_one_le (x : ℚ) : pyMin 1 x ≤ 1 := by
  unfold pyMin; split <;> linarith

theorem pyMin_one_nonneg (x : ℚ) (h : 0 ≤ x) : 0 ≤ pyMin 1 x := by
  unfold pyMin; split <;> linarith

theorem le_pyMin_one (c x : ℚ) (hc : c ≤ 1) (h : c ≤ x) : c ≤ pyMin 1 x := by
  unfold pyMin; split <;> linarith

theorem pyMaxI_zero_nonneg (y : Int) : 0 ≤ pyMaxI 0 y := by
  unfold pyMaxI; split <;> omega

theorem overload_bounds (y : Int) :
    (0 : ℚ) ≤ pyMin 1 (((pyMaxI 0 y : Int) : ℚ) * 0.2) ∧
    pyMin 1 (((pyMaxI 0 y : Int) : ℚ) * 0.2) ≤ 1 :=
  ⟨pyMin_one_nonneg _
      (mul_nonneg (by exact_mod_cast pyMaxI_zero_nonneg y) (by norm_num)),
    pyMin_one_le _⟩

theorem roundHalfEven_le (x : ℚ) (m : Int) (h : x ≤ (m : ℚ)) :
    roundHalfEven x ≤ m := by
  have hfl : ⌊x⌋ ≤ m := by
    have h2 := Int.floor_le_floor h
    rw [Int.floor_intCast] at h2
    exact h2
  simp only [roundHalfEven]
  split_ifs with h1 h2 h3
  · exact hfl
  · have hx : (⌊x⌋ : ℚ) + 1/2 ≤ x := by push_neg at h1; linarith
    have h3 : (⌊x⌋ : ℚ) < (m : ℚ) := by linarith
    have h4 : ⌊x⌋ < m := by exact_mod_cast h3
    omega
  · exact hfl
  · have hx : (⌊x⌋ : ℚ) + 1/2 ≤ x := by push_neg at h1; linarith
    have h3 : (⌊x⌋ : ℚ) < (m : ℚ) := by linarith
    have h4 : ⌊x⌋ < m := by exact_mod_cast h3
    omega

theorem le_roundHalfEven (x : ℚ) (m : Int) (h : (m : ℚ) ≤ x) :
    m ≤ roundHalfEven x := by
  have hfl : m ≤ ⌊x⌋ := Int.le_floor.2 h
  simp only [roundHalfEven]
  split_ifs <;> omega

theorem pyRound3_le_one (x : ℚ) (h : x ≤ 1) : pyRound3 x ≤ 1 := by
  have h1000 : x * 1000 ≤ ((1000 : Int) : ℚ) := by push_cast; linarith
  have hr := roundHalfEven_le (x * 1000) 1000 h1000
  have hr' : ((roundHalfEven (x * 1000)) : ℚ) ≤ 1000 := by exact_mod_cast hr
  unfold pyRound3
  linarith

theorem pyRound3_pos (x : ℚ) (h : 3/100 ≤ x) : 0 < pyRound3 x := by
  have h30 : ((30 : Int) : ℚ) ≤ x * 1000 := by push_cast; linarith
  have hr := le_roundHalfEven (x * 1000) 30 h30
  have hr' : (30 : ℚ) ≤ ((roundHalfEven (x * 1000)) : ℚ) := by exact_mod_cast hr
  unfold pyRound3
  linarith

/-- Bounds of the weighted risk sum of `predict_risk_profile`, abstracted over
the four component values. -/
theorem score_bounds (sp dep ov cx : ℚ) (hsp : 1/20 ≤ sp) (hsp1 : sp ≤ 1)
    (hdep : 0 ≤ dep) (hdep1 : dep ≤ 1) (hov : 0 ≤ ov) (hov1 : ov ≤ 1)
    (hcx : 0 ≤ cx) :
    0 < pyRound3 (pyMin 1 (sp + dep + ov + cx * 0.4) * 0.6 + ov * 0.2 + dep * 0.2) ∧
    pyRound3 (pyMin 1 (sp + dep + ov + cx * 0.4) * 0.6 + ov * 0.2 + dep * 0.2) ≤ 1 := by
  have hdel : 1/20 ≤ pyMin 1 (sp + dep + ov + cx * 0.4) :=
    le_pyMin_one _ _ (by norm_num) (by linarith)
  have hdel1 : pyMin 1 (sp + dep + ov + cx * 0.4) ≤ 1 := pyMin_one_le _
  constructor
  · exact pyRound3_pos _ (by linarith)
  · exact pyRound3_le_one _ (by linarith)

/-! ### C10 -/

/-- C10: for every task and related-task list, `predict_risk_profile` yields a
strictly positive `risk_score` of at most 1; the reported delay, overload and
dependency components are each at most 1; and the status penalty is at least
0.05 for every status. -/
theorem predict_risk_positive_and_bounded (task : Task) (related : List Task) :
    0 < (predict_risk_profile task related).risk_score ∧
    (predict_risk_profile task related).risk_score ≤ 1 ∧
    (predict_risk_profile task related).delay_probability ≤ 1 ∧
    (predict_risk_profile task related).overload_risk ≤ 1 ∧
    (predict_risk_profile task related).dependency_risk ≤ 1 ∧
    1/20 ≤ statusPenaltyOf task := by
  have hsp : 1/20 ≤ statusPenaltyOf task := by
    unfold statusPenaltyOf; split <;> norm_num
  have hsp1 : statusPenaltyOf task ≤ 1 := by
    unfold statusPenaltyOf; split <;> norm_num
  have hdep : (0 : ℚ) ≤ pyMin 1 ((task.depends_on.length : ℚ) * 0.15) :=
    pyMin_one_nonneg _ (by positivity)
  have hdep1 : pyMin 1 ((task.depends_on.length : ℚ) * 0.15) ≤ 1 := pyMin_one_le _
  have hcx : (0 : ℚ) ≤ estimate_complexity task := by
    unfold estimate_complexity
    exact pyMin_one_nonneg _ (by positivity)
  simp only [predict_risk_profile]
  split
  · exact ⟨(score_bounds _ _ _ _ hsp hsp1 hdep hdep1 (overload_bounds _).1
        (overload_bounds _).2 hcx).1,
      (score_bounds _ _ _ _ hsp hsp1 hdep hdep1 (overload_bounds _).1
        (overload_bounds _).2 hcx).2,
      pyRound3_le_one _ (pyMin_one_le _), pyRound3_le_one _ (pyMin_one_le _),
      pyRound3_le_one _ hdep1, hsp⟩
  · exact ⟨(score_bounds _ _ _ _ hsp hsp1 hdep hdep1 le_rfl (by norm_num) hcx).1,
      (score_bounds _ _ _ _ hsp hsp1 hdep hdep1 le_rfl (by norm_num) hcx).2,
      pyRound3_le_one _ (pyMin_one_le _), pyRound3_le_one _ (by norm_num),
      pyRound3_le_one _ hdep1, hsp⟩

/-! ### C5 -/

/-- Task whose metadata carries a non-numeric string for "impact". -/
def badMetaTask : Task :=
  { id := 1, title := "t", status := "pending", result_text := none,
    metadata_json := [("impact", Val.vstr "high")],
    owner_email := none, squad := none, depends_on := [] }

/-- Counterexample to C5: a present but non-numeric metadata value is passed
straight to `float(...)`, which raises `ValueError` — it is not defaulted to
0.5, and `classify_priority` does not return a priority label for this task. -/
theorem classify_priority_raises_counterexample :
    classify_priority badMetaTask =
      Except.error "could not convert string to float: \x27high\x27" := by
  rfl

/-- Amended C5: `classify_priority` defaults a metadata value to 0.5 only when
the key is absent; whenever the four values it reads convert to floats (which
holds in particular when they are absent), it returns the label CRITICAL /
HIGH / MEDIUM / LOW of the clamped weighted score with thresholds
0.8 / 0.6 / 0.35; a present non-convertible value instead raises `ValueError`
(see the counterexample). -/
theorem classify_priority_ok_on_numeric (task : Task) (qi qu qo qw : ℚ)
    (hi : pyFloat (pyGetD task.metadata_json "impact" (.vnum (1/2))) = .ok qi)
    (hu : pyFloat (pyGetD task.metadata_json "urgency" (.vnum (1/2))) = .ok qu)
    (ho : pyFloat (pyGetD task.metadata_json "okr_alignment" (.vnum (1/2))) = .ok qo)
    (hw : pyFloat (pyGetD task.metadata_json "user_importance" (.vnum (1/2))) = .ok qw) :
    classify_priority task =
      .ok (if pyMax 0 (pyMin 1 (qi * 0.3 + qu * 0.3 + qo * 0.2 + qw * 0.15 -
              0.1 * (task.depends_on.length : ℚ))) ≥ 0.8 then "CRITICAL"
        else if pyMax 0 (pyMin 1 (qi * 0.3 + qu * 0.3 + qo * 0.2 + qw * 0.15 -
              0.1 * (task.depends_on.length : ℚ))) ≥ 0.6 then "HIGH"
        else if pyMax 0 (pyMin 1 (qi * 0.3 + qu * 0.3 + qo * 0.2 + qw * 0.15 -
              0.1 * (task.depends_on.length : ℚ))) ≥ 0.35 then "MEDIUM"
        else "LOW") := by
  simp only [classify_priority, hi, hu, ho, hw, bind, Except.bind, pure, Except.pure]
  split
  · rfl
  · split
    · rfl
    · split <;> rfl

/-- Task whose metadata sets impact to 0.9 and leaves the other keys absent. -/
def numericMetaTask : Task :=
  { id := 2, title := "t", status := "pending", result_text := none,
    metadata_json := [("impact", Val.vnum (9/10))],
    owner_email := none, squad := none, depends_on := [] }

/-- Witness for C5's amended statement: all four reads convert (one present
numeric value, three defaults), and the bucketing applies. -/
theorem classify_priority_ok_witness :
    classify_priority numericMetaTask =
      .ok (if pyMax 0 (pyMin 1 ((9/10 : ℚ) * 0.3 + 1/2 * 0.3 + 1/2 * 0.2 + 1/2 * 0.15 -
              0.1 * (numericMetaTask.depends_on.length : ℚ))) ≥ 0.8 then "CRITICAL"
        else if pyMax 0 (pyMin 1 ((9/10 : ℚ) * 0.3 + 1/2 * 0.3 + 1/2 * 0.2 + 1/2 * 0.15 -
              0.1 * (numericMetaTask.depends_on.length : ℚ))) ≥ 0.6 then "HIGH"
        else if pyMax 0 (pyMin 1 ((9/10 : ℚ) * 0.3 + 1/2 * 0.3 + 1/2 * 0.2 + 1/2 * 0.15 -
              0.1 * (numericMetaTask.depends_on.length : ℚ))) ≥ 0.35 then "MEDIUM"
        else "LOW") :=
  classify_priority_ok_on_numeric numericMetaTask (9/10) (1/2) (1/2) (1/2)
    rfl rfl rfl rfl

/-! ### Task dependency / next-step text deriver (`app/services/task_logic.py`) -/

/-- Model of Python `sep.join(items)`. -/
def pyJoin (sep : String) : List String → String
  | [] => ""
  | [x] => x
  | x :: rest => x ++ sep ++ pyJoin sep rest

/-- Model of `PHASE_ORDER` (`task_logic.py` lines 7-12). -/
def PHASE_ORDER : List (String × Nat) :=
  [("design", 1), ("build", 2), ("test", 3), ("launch", 4)]

/-- Model of `detect_phase` (`task_logic.py` lines 15-25): keyword membership
checked in the fixed priority order design, build, test, launch. -/
def detect_phase (text : String) : String :=
  let text := pyLower text
  if ["prd", "spec", "design", "requirements", "architecture"].any
      (fun k => pyInStr k text) then "design"
  else if ["implement", "develop", "build", "code", "integration"].any
      (fun k => pyInStr k text) then "build"
  else if ["test", "qa", "validate", "bug", "regression"].any
      (fun k => pyInStr k text) then "test"
  else if ["deploy", "release", "launch", "rollout", "go live"].any
      (fun k => pyInStr k text) then "launch"
  else "unknown"

/-- The lower-cased task text scored by `analyze_task_relationships`
(`task_logic.py` lines 46 and 54): `f"{title or ''} {result_text}"` — a null
`result_text` renders as the literal string "None" in the f-string, and
`title or ''` is the identity on a non-null title. -/
def taskTextOf (t : Task) : String :=
  pyLower (t.title ++ " " ++ pyStrRender t.result_text)

/-- The fixed per-phase "Operational next steps" line appended by
`analyze_task_relationships` (`task_logic.py` lines 92-111): mirrors the
if/elif chain, with the unknown-phase clarify line as the final else. -/
def operationalLine (phase : String) : String :=
  if phase = "design" then
    "Operational next steps: finalize requirements, get stakeholder sign-off, then hand over to engineering."
  else if phase = "build" then
    "Operational next steps: confirm design/PRD is approved, break work into subtasks, and start implementation."
  else if phase = "test" then
    "Operational next steps: coordinate with engineering, run test cases, capture bugs, and verify fixes."
  else if phase = "launch" then
    "Operational next steps: verify testing is complete, align on rollout plan, and monitor after deployment."
  else
    "Operational next steps: clarify owner, deadline, and success criteria for this task."

/-- Insert into an ascending list (used to model Python `sorted`). -/
def insertSorted (n : Nat) : List Nat → List Nat
  | [] => [n]
  | m :: rest => if n ≤ m then n :: m :: rest else m :: insertSorted n rest

/-- Model of Python `sorted(set(ids))`. -/
def pySortedSet (l : List Nat) : List Nat := l.dedup.foldr insertSorted []

/-- Model of the id list rendering `", ".join(f"#{i}" for i in sorted(set(ids)))`. -/
def idsJoin (ids : List Nat) : String :=
  pyJoin ", " ((pySortedSet ids).map (fun i => "#" ++ toString i))

/-- The project keywords of `analyze_task_relationships` (line 59). -/
def projectKeywords : List String :=
  ["bigbasket", "browserstack", "finance", "inventory", "stock"]

/-- Model of `analyze_task_relationships` (`app/services/task_logic.py` lines
28-113).  `all_tasks` stands for the database query result (all tasks ordered
by `created_at` ascending); the `id != new_task.id` filter of the query is
applied here.  The single Python loop appends to two independent lists; the two
`filterMap` passes build exactly those lists. -/
def analyze_task_relationships (all_tasks : List Task) (new_task : Task) : String :=
  let all_tasks := all_tasks.filter (fun t => t.id ≠ new_task.id)
  let this_text := taskTextOf new_task
  let this_phase := detect_phase this_text
  let this_phase_order := (List.lookup this_phase PHASE_ORDER).getD 0
  let sameProject : Task → Bool := fun t =>
    projectKeywords.any (fun kw => pyInStr kw this_text && pyInStr kw (taskTextOf t))
  let otherOrder : Task → Nat := fun t =>
    (List.lookup (detect_phase (taskTextOf t)) PHASE_ORDER).getD 0
  let depends_on_ids : List Nat := all_tasks.filterMap (fun t =>
    if sameProject t ∧ this_phase_order > otherOrder t ∧ otherOrder t > 0 then
      some t.id else none)
  let blocks_ids : List Nat := all_tasks.filterMap (fun t =>
    if sameProject t ∧ this_phase_order < otherOrder t ∧ this_phase_order > 0 then
      some t.id else none)
  let lines : List String :=
    (if depends_on_ids ≠ [] then
      ["This task cannot be completed until the following tasks are finished: " ++
        idsJoin depends_on_ids ++ "."] else []) ++
    (if blocks_ids ≠ [] then
      ["This task must be finished before the following tasks can be completed: " ++
        idsJoin blocks_ids ++ "."] else []) ++
    (if depends_on_ids = [] ∧ blocks_ids = [] then
      ["This task has no obvious prerequisite or blocking tasks based on current data."]
    else []) ++
    [operationalLine this_phase]
  pyJoin "\n" lines

/-! ### C6 -/

/-- Task whose text contains both "kpi" and "analysis" (and no phase keyword). -/
def kpiTask : Task :=
  { id := 3, title := "kpi analysis", status := "pending", result_text := none,
    metadata_json := [], owner_email := none, squad := none, depends_on := [] }

/-- Counterexample to C6: for a task whose text contains both "kpi" and
"analysis", the next-step deriver emits no "attach KPI data and begin analysis"
line (and no prerequisite-blocking line): its output is the no-obvious-deps
line plus the unknown-phase clarify line.  No kpi/analysis rule and no
`prerequisite_task_id` lookup exist in `analyze_task_relationships`. -/
theorem next_steps_kpi_counterexample :
    pyInStr "kpi" (taskTextOf kpiTask) = true ∧
    pyInStr "analysis" (taskTextOf kpiTask) = true ∧
    analyze_task_relationships [] kpiTask =
      "This task has no obvious prerequisite or blocking tasks based on current data.\nOperational next steps: clarify owner, deadline, and success criteria for this task." ∧
    pyInStr "attach KPI data" (analyze_task_relationships [] kpiTask) = false := by
  refine ⟨by decide, by decide, by decide, by decide⟩

theorem pyJoin_last_line (s1 s2 s3 op : String) (c1 c2 c3 : Prop)
    [Decidable c1] [Decidable c2] [Decidable c3] (h : ¬c1 → ¬c2 → c3) :
    ∃ pre, pyJoin "\n" ((if c1 then [s1] else []) ++ (if c2 then [s2] else []) ++
      (if c3 then [s3] else []) ++ [op]) = pre ++ "\n" ++ op := by
  by_cases h1 : c1 <;> by_cases h2 : c2 <;> by_cases h3 : c3
  · exact ⟨s1 ++ "\n" ++ s2 ++ "\n" ++ s3, by simp [h1, h2, h3, pyJoin, String.append_assoc]⟩
  · exact ⟨s1 ++ "\n" ++ s2, by simp [h1, h2, h3, pyJoin, String.append_assoc]⟩
  · exact ⟨s1 ++ "\n" ++ s3, by simp [h1, h2, h3, pyJoin, String.append_assoc]⟩
  · exact ⟨s1, by simp [h1, h2, h3, pyJoin, String.append_assoc]⟩
  · exact ⟨s2 ++ "\n" ++ s3, by simp [h1, h2, h3, pyJoin, String.append_assoc]⟩
  · exact ⟨s2, by simp [h1, h2, h3, pyJoin, String.append_assoc]⟩
  · exact ⟨s3, by simp [h1, h2, h3, pyJoin, String.append_assoc]⟩
  · exact absurd (h h1 h2) h3

/-- Amended C6: for every task the deriver emits one or two dependency-summary
lines (or the fixed no-obvious-dependencies line), always followed by exactly
one fixed "Operational next steps" template line chosen by the detected phase
of the task text; the unknown phase yields the clarify-owner line.  There is no
prerequisite-status rule and no kpi/analysis rule. -/
theorem next_steps_always_phase_line (all_tasks : List Task) (t : Task) :
    (∃ pre, analyze_task_relationships all_tasks t =
      pre ++ "\n" ++ operationalLine (detect_phase (taskTextOf t))) ∧
    operationalLine "unknown" =
      "Operational next steps: clarify owner, deadline, and success criteria for this task." := by
  constructor
  · simp only [analyze_task_relationships]
    exact pyJoin_last_line _ _ _ _ _ _ _
      (fun h1 h2 => ⟨not_not.1 h1, not_not.1 h2⟩)
  · rfl

/-! ### Plan generation orchestrator (`app/ai_logic.py`) -/

/-- Split a character list into lines at newline characters: the model of the
line structure used by `textwrap.dedent` and `str.split('\n')`.  Always returns
at least one (possibly empty) line. -/
def splitNl : List Char → List (List Char)
  | [] => [[]]
  | c :: rest =>
    if c = '\n' then [] :: splitNl rest
    else
      match splitNl rest with
      | l :: ls => (c :: l) :: ls
      | [] => [[c]]

/-- Rejoin lines with newlines (left inverse of `splitNl`). -/
def joinNlL : List (List Char) → List Char
  | [] => []
  | [l] => l
  | l :: ls => l ++ '\n' :: joinNlL ls

/-- The margin characters of `textwrap.dedent`: spaces and tabs only. -/
def isTabSpace (c : Char) : Bool := c == ' ' || c == '\t'

/-- A line consisting solely of whitespace in the sense of dedent's
`^[ \t]+$` normalisation regex: nonempty and all spaces/tabs. -/
def lineWsOnly (l : List Char) : Bool := !l.isEmpty && l.all isTabSpace

/-- Dedent's first pass: whitespace-only lines are normalised to empty lines. -/
def normLine (l : List Char) : List Char := if lineWsOnly l then [] else l

/-- A line that contributes no indent sample to dedent's margin computation:
empty or all spaces/tabs (after normalisation there are no other blank forms). -/
def lineBlank (l : List Char) : Bool := l.all isTabSpace

/-- Leading space/tab run of a line (dedent's `(^[ \t]*)(?:[^ \t\n])` capture). -/
def wsIndent (l : List Char) : List Char := l.takeWhile isTabSpace

/-- Longest common prefix of two indent strings, the effect of dedent's margin
update loop (both `startswith` branches and the zip-mismatch branch). -/
def commonPfx : List Char → List Char → List Char
  | [], _ => []
  | _, [] => []
  | a :: as, b :: bs => if a = b then a :: commonPfx as bs else []

/-- Dedent's margin: fold the common prefix over the indents of non-blank
lines; `none` models Python's `margin is None` (no sample lines). -/
def marginOf (lines : List (List Char)) : Option (List Char) :=
  match (lines.filter (fun l => !lineBlank l)).map wsIndent with
  | [] => none
  | i :: is => some (is.foldl commonPfx i)

/-- Strip the margin from a line when the line starts with it (the effect of
dedent's `re.sub(r'(?m)^' + margin, '', text)`). -/
def stripMarginL (margin l : List Char) : List Char :=
  if isPrefixL margin l then l.drop margin.length else l

/-- Character-level model of `textwrap.dedent` (the long-standing CPython
implementation, whose documented behaviour normalises whitespace-only lines
and strips the common space/tab margin of the remaining lines). -/
def dedentChars (cs : List Char) : List Char :=
  let lines := splitNl cs
  let normed := lines.map normLine
  let margin := (marginOf normed).getD []
  if margin.isEmpty then joinNlL normed
  else joinNlL (normed.map (stripMarginL margin))

/-- Model of `textwrap.dedent` on strings. -/
def pyDedent (s : String) : String := ⟨dedentChars s.data⟩

/-- Character-level model of `str.strip()` (ASCII whitespace). -/
def stripChars (l : List Char) : List Char :=
  ((l.dropWhile pyIsWs).reverse.dropWhile pyIsWs).reverse

/-- Model of `str.strip()`. -/
def pyStrip (s : String) : String := ⟨stripChars s.data⟩

/-- Model of `str.upper()` (ASCII-faithful). -/
def pyUpper (s : String) : String := ⟨s.data.map Char.toUpper⟩

/-- Fractional digits of a terminating decimal expansion (with fuel; JSON
metadata numbers are integers or finite decimals, for which this is exact). -/
def fracDigitsStr : Nat → Nat → Nat → String
  | 0, _, _ => ""
  | _, 0, _ => ""
  | fuel + 1, num, den =>
    let num10 := num * 10
    toString (num10 / den) ++ fracDigitsStr fuel (num10 % den) den

/-- Python `str()` of a number: integers print without a point, other rationals
with their decimal expansion (exact for the finite decimals JSON carries). -/
def pyStrNum (q : ℚ) : String :=
  if q.den = 1 then toString q.num
  else
    (if q < 0 then "-" else "") ++
      toString (q.num.natAbs / q.den) ++ "." ++
      fracDigitsStr 17 (q.num.natAbs % q.den) q.den

mutual

/-- Python `repr()` of a metadata value (embedded-quote escaping inside string
reprs is not modelled; the engine only substring-scans the result). -/
def pyRepr : Val → String
  | .vnum q => pyStrNum q
  | .vstr s => "\x27" ++ s ++ "\x27"
  | .vnone => "None"
  | .vlist l => "[" ++ pyReprList l ++ "]"

/-- Comma-joined reprs of a list's elements. -/
def pyReprList : List Val → String
  | [] => ""
  | [v] => pyRepr v
  | v :: rest => pyRepr v ++ ", " ++ pyReprList rest

end

/-- Python `str()` of a metadata value (`f"{value}"`). -/
def pyStr : Val → String
  | .vnum q => pyStrNum q
  | .vstr s => s
  | .vnone => "None"
  | .vlist l => pyRepr (.vlist l)

/-- Python `repr()` of the metadata dict (`f"{metadata}"`); dict order is
insertion order, modelled by the association list's order. -/
def pyReprDict (m : List (String × Val)) : String :=
  "\x7b" ++ pyJoin ", " (m.map (fun p => "\x27" ++ p.1 ++ "\x27: " ++ pyRepr p.2)) ++ "\x7d"

/-- Python truthiness of a metadata value. -/
def pyTruthyVal : Val → Bool
  | .vnum q => !(q == 0)
  | .vstr s => !(s == "")
  | .vlist l => !l.isEmpty
  | .vnone => false

/-- Truthiness of an optional value (`metadata.get(k)` returns `None` when the
key is missing). -/
def pyTruthyOptVal : Option Val → Bool
  | none => false
  | some v => pyTruthyVal v

/-- Python `a or b` over `metadata.get` results: the first operand when truthy,
otherwise the second. -/
def pyOr (a b : Option Val) : Option Val := if pyTruthyOptVal a then a else b

/-- Model of `metadata.get(k)` (no default). -/
def pyGet (m : List (String × Val)) (k : String) : Option Val := List.lookup k m

/-- Context flags dict of `_infer_context_flags` (`app/ai_logic.py` lines
137-145). -/
structure ContextFlags where
  is_finance : Bool
  is_growth : Bool
  is_data : Bool
  is_engineering : Bool
  is_customer : Bool

/-- Model of `_infer_context_flags`. -/
def _infer_context_flags (text : String) : ContextFlags :=
  let text := pyLower text
  { is_finance := ["revenue", "cost", "pricing", "budget", "pnl"].any
      (fun k => pyInStr k text)
    is_growth := ["campaign", "seo", "marketing", "growth", "acquisition"].any
      (fun k => pyInStr k text)
    is_data := ["data", "dashboard", "report", "analysis", "analytics"].any
      (fun k => pyInStr k text)
    is_engineering := ["build", "develop", "integration", "api", "deploy", "ship"].any
      (fun k => pyInStr k text)
    is_customer := ["customer", "support", "cx", "success", "churn"].any
      (fun k => pyInStr k text) }

/-- Model of `_infer_currency` (`app/ai_logic.py` lines 148-152). -/
def _infer_currency (metadata : List (String × Val)) (fallback : String) : String :=
  match pyOr (pyGet metadata "currency") (pyGet metadata "currency_code") with
  | some (.vstr s) => if pyStrip s ≠ "" then pyUpper (pyStrip s) else fallback
  | _ => fallback

/-- The `summary_context`/`context_str` locals of `build_local_fallback_plan`
(`app/ai_logic.py` lines 165-178). -/
def fallback_context_str (metadata : List (String × Val)) : String :=
  let squad := pyOr (pyGet metadata "squad") (pyGet metadata "team")
  let company := pyOr (pyGet metadata "company") (pyGet metadata "company_id")
  let summary_context : List String :=
    (match squad with
      | some v => if pyTruthyVal v then ["squad " ++ pyStr v] else []
      | none => []) ++
    (match company with
      | some v => if pyTruthyVal v then ["company " ++ pyStr v] else []
      | none => [])
  if summary_context ≠ [] then pyJoin ", " summary_context else "this task"

/-- The normalised `dependencies` local (`app/ai_logic.py` line 204):
`metadata.get("dependencies") or metadata.get("depends_on") or []`. -/
def fallback_dependencies (metadata : List (String × Val)) : Val :=
  match pyOr (pyGet metadata "dependencies") (pyGet metadata "depends_on") with
  | some v => if pyTruthyVal v then v else .vlist []
  | none => .vlist []

/-- The `steps` local of `build_local_fallback_plan` (lines 180-208): two base
steps, flag-dependent extras, and the prerequisites line. -/
def fallback_steps (metadata : List (String × Val)) (context_str : String)
    (flags : ContextFlags) : List String :=
  let priority := pyGetD metadata "priority" (.vstr "normal")
  let steps : List String :=
    ["Clarify owner, deadline, and success criteria with " ++ context_str ++ ".",
      "Log this task into your tracking tool with priority \x27" ++ pyStr priority ++ "\x27."] ++
    (if flags.is_finance then
      ["Pull recent financial KPIs and compare week-over-week to flag >10% movements (₹ conversions included)."]
    else []) ++
    (if flags.is_growth then
      ["Audit active campaigns and attribution to understand short-term lifts or drops."]
    else []) ++
    (if flags.is_data then
      ["Validate data freshness and definitions with BI/analytics before publishing any summary."]
    else []) ++
    (if flags.is_engineering then
      ["Break down implementation work into smaller tickets with testable acceptance criteria."]
    else []) ++
    (if flags.is_customer then
      ["Review recent customer feedback/tickets to capture qualitative signals."]
    else [])
  match fallback_dependencies metadata with
  | .vlist l =>
    if !l.isEmpty then
      steps ++ ["Confirm prerequisites are done: " ++ pyJoin ", " (l.map pyStr) ++ "."]
    else if pyTruthyOptVal (pyGet metadata "requires") then
      steps ++ ["Confirm prerequisites are done: " ++
        pyStr ((pyGet metadata "requires").getD .vnone) ++ "."]
    else steps
  | _ =>
    if pyTruthyOptVal (pyGet metadata "requires") then
      steps ++ ["Confirm prerequisites are done: " ++
        pyStr ((pyGet metadata "requires").getD .vnone) ++ "."]
    else steps

/-- The `risks` local of `build_local_fallback_plan` (lines 210-222). -/
def fallback_risks (flags : ContextFlags) : List String :=
  let risks : List String :=
    (if flags.is_finance then
      ["Delayed or inconsistent revenue data may hide anomalies."] else []) ++
    (if flags.is_growth then
      ["Channel mix changes could distort short-term performance."] else []) ++
    (if flags.is_engineering then
      ["Integration or API limits may block delivery timelines."] else []) ++
    (if flags.is_customer then
      ["Customer-impacting changes may increase churn if not communicated."] else []) ++
    (if flags.is_data then
      ["Metric definitions may not be aligned across stakeholders."] else [])
  if risks = [] then
    ["Key inputs might be incomplete or delayed, affecting decision quality."]
  else risks

/-- The `data_needed` local of `build_local_fallback_plan` (lines 224-238). -/
def fallback_data_needed (flags : ContextFlags) (inferred_currency : String) :
    List String :=
  let data_needed : List String :=
    (if flags.is_finance then
      ["Recent revenue/cost exports with " ++ inferred_currency ++ " amounts and volumes."]
    else []) ++
    (if flags.is_growth then
      ["Campaign performance by channel with spend vs. conversions."] else []) ++
    (if flags.is_data then
      ["Source-of-truth dashboards or warehouse tables with metric definitions."] else []) ++
    (if flags.is_engineering then
      ["API docs, architectural constraints, and staging credentials."] else []) ++
    (if flags.is_customer then
      ["Latest NPS/CSAT or churn/ticket data broken down by segment."] else [])
  if data_needed = [] then
    ["Baseline metrics, owners, and success criteria from stakeholders."]
  else data_needed

/-- The `dependencies_text` local of `build_local_fallback_plan` (lines 240-246). -/
def fallback_dependencies_text (metadata : List (String × Val)) : String :=
  match fallback_dependencies metadata with
  | .vlist l =>
    if !l.isEmpty then pyJoin "\n" (l.map (fun d => "- " ++ pyStr d))
    else if pyTruthyOptVal (pyGet metadata "requires") then
      "- " ++ pyStr ((pyGet metadata "requires").getD .vnone)
    else "- No explicit dependencies captured in metadata."
  | _ =>
    if pyTruthyOptVal (pyGet metadata "requires") then
      "- " ++ pyStr ((pyGet metadata "requires").getD .vnone)
    else "- No explicit dependencies captured in metadata."

/-- Model of `build_local_fallback_plan` (`app/ai_logic.py` lines 155-276):
the deterministic local template used when the provider call fails, assembled
from the locals modelled above.  The final expression is
`textwrap.dedent(f-string).strip()`. -/
def build_local_fallback_plan (title : String) (metadata : List (String × Val))
    (currency : String) : String :=
  let inferred_currency := _infer_currency metadata currency
  let text_blob := title ++ " " ++ pyReprDict metadata
  let flags := _infer_context_flags text_blob
  let context_str := fallback_context_str metadata
  let steps := fallback_steps metadata context_str flags
  let risks := fallback_risks flags
  let data_needed := fallback_data_needed flags inferred_currency
  let dependencies_text := fallback_dependencies_text metadata
  let steps_block := pyJoin "\n" (steps.map (fun item => "- " ++ item))
  let risks_block := pyJoin "\n" (risks.map (fun item => "- " ++ item))
  let data_needed_block := pyJoin "\n" (data_needed.map (fun item => "- " ++ item))
  pyStrip (pyDedent (
    "\n        Summary: Execution plan for \x27" ++ title ++
    "\x27 (local fallback, external AI unavailable).\n\n        Context:\n        - Currency: " ++
    inferred_currency ++ "\n        - Scope: " ++ context_str ++
    "\n\n        Steps:\n        " ++ steps_block ++
    "\n\n        Risks:\n        " ++ risks_block ++
    "\n\n        DataNeeded:\n        " ++ data_needed_block ++
    "\n\n        Dependencies:\n        " ++ dependencies_text ++
    "\n\n        Note:\n        - External AI provider is currently unavailable (quota, network, or configuration issue).\n        - Used the built-in local fallback playbook tuned to this task.\n        "))

/-- Model of `run_ai_coo_logic` (`app/ai_logic.py` lines 279-325).  The external
provider call is a parameter: `.ok content` models a successful chat-completion
response (whose content the source strips), `.error e` a raised exception with
message text `e`.  The source catches every exception, classifies it by
substring, and falls back to the local plan with currency "INR" (a `None`
metadata is normalised to `{}` before the call, i.e. to the empty map here). -/
def run_ai_coo_logic (title : String) (metadata : List (String × Val))
    (provider : Except String String) : String × String :=
  match provider with
  | .ok content => (pyStrip content, "ok")
  | .error e =>
    let provider_status :=
      if pyInStr "insufficient_quota" e || pyInStr "429" e then
        "fallback_insufficient_quota"
      else "fallback_error"
    (build_local_fallback_plan title metadata "INR", provider_status)

/-! ### Line-structure lemmas for the dedent/strip analysis -/

theorem splitNl_ne_nil (l : List Char) : splitNl l ≠ [] := by
  induction l with
  | nil => simp [splitNl]
  | cons c rest ih =>
    simp only [splitNl]
    split
    · simp
    · cases h : splitNl rest with
      | nil => simp
      | cons a as => simp

theorem splitNl_cons_newline (rest : List Char) :
    splitNl ('\n' :: rest) = [] :: splitNl rest := by
  simp [splitNl]

theorem splitNl_cons_other (c : Char) (rest : List Char) (hc : ¬c = '\n')
    (a : List Char) (as : List (List Char)) (h : splitNl rest = a :: as) :
    splitNl (c :: rest) = (c :: a) :: as := by
  simp [splitNl, hc, h]

theorem splitNl_dest (rest : List Char) : ∃ a as, splitNl rest = a :: as := by
  cases h : splitNl rest with
  | nil => exact absurd h (splitNl_ne_nil rest)
  | cons a as => exact ⟨a, as, rfl⟩

theorem splitNl_newline (xs ys : List Char) :
    splitNl (xs ++ '\n' :: ys) = splitNl xs ++ splitNl ys := by
  induction xs with
  | nil =>
    show splitNl ('\n' :: ys) = [[]] ++ splitNl ys
    rw [splitNl_cons_newline]; rfl
  | cons c rest ih =>
    rw [List.cons_append]
    by_cases hc : c = '\n'
    · subst hc
      rw [splitNl_cons_newline, splitNl_cons_newline, ih, List.cons_append]
    · obtain ⟨a, as, h⟩ := splitNl_dest rest
      have h2 : splitNl (rest ++ '\n' :: ys) = a :: (as ++ splitNl ys) := by
        rw [ih, h, List.cons_append]
      rw [splitNl_cons_other c _ hc _ _ h2, splitNl_cons_other c _ hc _ _ h,
        List.cons_append]

theorem splitNl_noNl (t : List Char) (h : '\n' ∉ t) : splitNl t = [t] := by
  induction t with
  | nil => rfl
  | cons c rest ih =>
    have hc : ¬(c = '\n') := fun hceq => h (hceq ▸ List.mem_cons_self c rest)
    have hr : '\n' ∉ rest := fun hmem => h (List.mem_cons_of_mem c hmem)
    rw [splitNl_cons_other c rest hc rest [] (ih hr)]

theorem mem_splitNl_noNl (l : List Char) (x : List Char) (hx : x ∈ splitNl l) :
    '\n' ∉ x := by
  induction l generalizing x with
  | nil =>
    simp only [splitNl, List.mem_singleton] at hx
    subst hx; simp
  | cons c rest ih =>
    by_cases hc : c = '\n'
    · subst hc
      rw [splitNl_cons_newline] at hx
      rcases List.mem_cons.1 hx with h1 | h1
      · subst h1; simp
      · exact ih x h1
    · obtain ⟨a, as, h⟩ := splitNl_dest rest
      rw [splitNl_cons_other c rest hc a as h] at hx
      rcases List.mem_cons.1 hx with h1 | h1
      · subst h1
        intro hmem
        rcases List.mem_cons.1 hmem with h2 | h2
        · exact hc h2.symm
        · exact ih a (h ▸ List.mem_cons_self a as) h2
      · exact ih x (h ▸ List.mem_cons_of_mem a h1)

theorem joinNl_cons_cons (a : List Char) (b : List (List Char)) (hb : b ≠ []) :
    joinNlL (a :: b) = a ++ '\n' :: joinNlL b := by
  cases b with
  | nil => exact absurd rfl hb
  | cons x xs => rfl

theorem joinNl_splitNl (l : List Char) : joinNlL (splitNl l) = l := by
  induction l with
  | nil => rfl
  | cons c rest ih =>
    by_cases hc : c = '\n'
    · subst hc
      rw [splitNl_cons_newline,
        joinNl_cons_cons [] (splitNl rest) (splitNl_ne_nil rest), ih]
      rfl
    · obtain ⟨a, as, h⟩ := splitNl_dest rest
      rw [splitNl_cons_other c rest hc a as h]
      cases as with
      | nil =>
        have ha : a = rest := by
          have := ih
          rw [h] at this
          exact this
        rw [ha]
        rfl
      | cons b bs =>
        have ha : a ++ '\n' :: joinNlL (b :: bs) = rest := by
          have := ih
          rw [h, joinNl_cons_cons a (b :: bs) (by simp)] at this
          exact this
        rw [joinNl_cons_cons (c :: a) (b :: bs) (by simp)]
        rw [← ha]
        rfl

theorem joinNl_append (l1 l2 : List (List Char)) (h1 : l1 ≠ []) (h2 : l2 ≠ []) :
    joinNlL (l1 ++ l2) = joinNlL l1 ++ '\n' :: joinNlL l2 := by
  induction l1 with
  | nil => exact absurd rfl h1
  | cons a as ih =>
    cases as with
    | nil =>
      show joinNlL (a :: l2) = joinNlL [a] ++ '\n' :: joinNlL l2
      rw [joinNl_cons_cons a l2 h2]
      rfl
    | cons a' as' =>
      have hne : (a' :: as') ++ l2 ≠ [] := by simp
      show joinNlL (a :: ((a' :: as') ++ l2)) = _
      rw [joinNl_cons_cons a _ hne, ih (by simp),
        joinNl_cons_cons a (a' :: as') (by simp)]
      simp [List.append_assoc]

theorem commonPfx_nil_right (x : List Char) : commonPfx x [] = [] := by
  cases x <;> rfl

theorem foldl_commonPfx_nil_acc (is : List (List Char)) :
    List.foldl commonPfx [] is = [] := by
  induction is with
  | nil => rfl
  | cons i is ih => simpa [commonPfx] using ih

theorem foldl_commonPfx_of_mem_nil (is : List (List Char)) (i : List Char)
    (h : [] ∈ is) : List.foldl commonPfx i is = [] := by
  induction is generalizing i with
  | nil => simp at h
  | cons j js ih =>
    rcases List.mem_cons.1 h with h1 | h1
    · subst h1
      show List.foldl commonPfx (commonPfx i []) js = []
      rw [commonPfx_nil_right]
      exact foldl_commonPfx_nil_acc js
    · exact ih _ h1

theorem margin_empty_of_zero_indent (lines : List (List Char))
    (h : ∃ l ∈ lines, lineBlank l = false ∧ wsIndent l = []) :
    (marginOf lines).getD [] = [] := by
  obtain ⟨l, hl, hb, hi⟩ := h
  have hmem : ([] : List Char) ∈ (lines.filter (fun l => !lineBlank l)).map wsIndent := by
    rw [← hi]
    exact List.mem_map_of_mem wsIndent (List.mem_filter.2 ⟨hl, by simp [hb]⟩)
  unfold marginOf
  cases hind : (lines.filter (fun l => !lineBlank l)).map wsIndent with
  | nil => rw [hind] at hmem; simp at hmem
  | cons i is =>
    rw [hind] at hmem
    simp only [Option.getD_some]
    rcases List.mem_cons.1 hmem with h1 | h1
    · rw [← h1]
      exact foldl_commonPfx_nil_acc is
    · exact foldl_commonPfx_of_mem_nil is i h1

theorem dropWhile_append_ne (p : Char → Bool) (l1 l2 : List Char)
    (h : l1.dropWhile p ≠ []) :
    (l1 ++ l2).dropWhile p = l1.dropWhile p ++ l2 := by
  induction l1 with
  | nil => exact absurd rfl h
  | cons c rest ih =>
    by_cases hc : p c
    · have h2 : rest.dropWhile p ≠ [] := by
        simpa [List.dropWhile, hc] using h
      simp [List.dropWhile, hc, ih h2]
    · simp [List.dropWhile, hc]

theorem dropWhile_append_all (p : Char → Bool) (l1 l2 : List Char)
    (h : l1.dropWhile p = []) :
    (l1 ++ l2).dropWhile p = l2.dropWhile p := by
  induction l1 with
  | nil => rfl
  | cons c rest ih =>
    by_cases hc : p c
    · have h2 : rest.dropWhile p = [] := by
        simpa [List.dropWhile, hc] using h
      simp [List.dropWhile, hc, ih h2]
    · simp [List.dropWhile, hc] at h

theorem exists_mem_dropWhile (p : Char → Bool) (l : List Char)
    (h : ∃ c ∈ l, p c = false) : ∃ c ∈ l.dropWhile p, p c = false := by
  induction l with
  | nil => simpa using h
  | cons a rest ih =>
    by_cases ha : p a
    · obtain ⟨c, hc, hpc⟩ := h
      rcases List.mem_cons.1 hc with h1 | h1
      · subst h1; rw [ha] at hpc; cases hpc
      · simpa [List.dropWhile, ha] using ih ⟨c, h1, hpc⟩
    · exact ⟨a, by simp [List.dropWhile, ha], by simpa using ha⟩

theorem stripChars_ne_nil (l : List Char) (h : ∃ c ∈ l, pyIsWs c = false) :
    stripChars l ≠ [] := by
  unfold stripChars
  have h1 := exists_mem_dropWhile pyIsWs l h
  have h2 : ∃ c ∈ (l.dropWhile pyIsWs).reverse, pyIsWs c = false := by
    obtain ⟨c, hc, hpc⟩ := h1
    exact ⟨c, List.mem_reverse.2 hc, hpc⟩
  have h3 := exists_mem_dropWhile pyIsWs _ h2
  obtain ⟨c, hc, _⟩ := h3
  intro hcontra
  rw [List.reverse_eq_nil_iff] at hcontra
  rw [hcontra] at hc
  simp at hc

theorem isPrefixL_append_self (n y : List Char) : isPrefixL n (n ++ y) = true := by
  induction n with
  | nil => rfl
  | cons a as ih => simp [isPrefixL, ih]

theorem hasSub_sandwich (x n y : List Char) : hasSub (x ++ (n ++ y)) n = true := by
  induction x with
  | nil =>
    cases n with
    | nil => cases y <;> simp [hasSub, isPrefixL]
    | cons m ms =>
      show hasSub ((m :: ms) ++ y) (m :: ms) = true
      have hp : isPrefixL (m :: ms) ((m :: ms) ++ y) = true := isPrefixL_append_self _ _
      simp only [List.cons_append] at hp
      simp [hasSub, hp]
  | cons a rest ih =>
    simp [hasSub, ih]

theorem splitNl_prepend (C W : List Char) (h : '\n' ∉ C) :
    ∃ z rest, splitNl W = z :: rest ∧ splitNl (C ++ W) = (C ++ z) :: rest := by
  induction C with
  | nil =>
    obtain ⟨z, rest, hz⟩ := splitNl_dest W
    exact ⟨z, rest, hz, by simpa using hz⟩
  | cons c cs ih =>
    have hc : ¬(c = '\n') := fun hceq => h (hceq ▸ List.mem_cons_self c cs)
    have hcs : '\n' ∉ cs := fun hmem => h (List.mem_cons_of_mem c hmem)
    obtain ⟨z, rest, hz, hp⟩ := ih hcs
    refine ⟨z, rest, hz, ?_⟩
    rw [List.cons_append, splitNl_cons_other c _ hc _ _ hp, List.cons_append]

theorem splitNl_append_last (W Q : List Char) (h : '\n' ∉ Q) :
    ∃ init lastl, splitNl W = init ++ [lastl] ∧
      splitNl (W ++ Q) = init ++ [lastl ++ Q] := by
  induction W with
  | nil =>
    exact ⟨[], [], rfl, by simpa using splitNl_noNl Q h⟩
  | cons c rest ih =>
    obtain ⟨init, lastl, h1, h2⟩ := ih
    by_cases hc : c = '\n'
    · subst hc
      refine ⟨[] :: init, lastl, ?_, ?_⟩
      · rw [splitNl_cons_newline, h1]; rfl
      · rw [List.cons_append, splitNl_cons_newline, h2]; rfl
    · cases init with
      | nil =>
        simp only [List.nil_append] at h1 h2
        refine ⟨[], c :: lastl, ?_, ?_⟩
        · rw [splitNl_cons_other c rest hc lastl [] h1]; rfl
        · rw [List.cons_append, splitNl_cons_other c _ hc (lastl ++ Q) [] h2]
          simp
      | cons i init' =>
        simp only [List.cons_append] at h1 h2
        refine ⟨(c :: i) :: init', lastl, ?_, ?_⟩
        · rw [splitNl_cons_other c rest hc i (init' ++ [lastl]) h1]; rfl
        · rw [List.cons_append, splitNl_cons_other c _ hc i (init' ++ [lastl ++ Q]) h2]
          rfl

theorem lineWsOnly_false_of_mem (l : List Char) (c : Char) (hc : c ∈ l)
    (hts : isTabSpace c = false) : lineWsOnly l = false := by
  simp only [lineWsOnly, Bool.and_eq_false_iff]
  right
  rw [List.all_eq_false]
  exact ⟨c, hc, by simp [hts]⟩

theorem map_normLine_id (ls : List (List Char))
    (h : ∀ l ∈ ls, lineWsOnly l = false) : ls.map normLine = ls := by
  induction ls with
  | nil => rfl
  | cons a as ih =>
    have ha : normLine a = a := by
      unfold normLine
      rw [h a (List.mem_cons_self a as)]
      simp
    simp only [List.map_cons, ha,
      ih (fun l hl => h l (List.mem_cons_of_mem a hl))]

theorem mem_joinNl (ls : List (List Char)) (l : List Char) (c : Char)
    (hl : l ∈ ls) (hc : c ∈ l) : c ∈ joinNlL ls := by
  induction ls with
  | nil => simp at hl
  | cons a as ih =>
    rcases List.mem_cons.1 hl with h1 | h1
    · rw [h1] at hc
      cases as with
      | nil => exact hc
      | cons b bs =>
        rw [joinNl_cons_cons a (b :: bs) (by simp)]
        exact List.mem_append_left _ hc
    · cases as with
      | nil => simp at h1
      | cons b bs =>
        rw [joinNl_cons_cons a (b :: bs) (by simp)]
        exact List.mem_append_right _ (List.mem_cons_of_mem _ (ih h1))

theorem dropWhile_head_false (p : Char → Bool) (l : List Char) (c : Char)
    (cs : List Char) (h : l.dropWhile p = c :: cs) : p c = false := by
  induction l with
  | nil => simp at h
  | cons a rest ih =>
    by_cases ha : p a
    · rw [List.dropWhile_cons_of_pos ha] at h
      exact ih h
    · rw [List.dropWhile_cons_of_neg ha] at h
      cases h
      simpa using ha

/-- Core analysis of `dedent` + `strip` on the fallback-plan template: with the
title `T` spliced between a newline-free lead-in `LA` (the Summary line prefix)
and a newline-free quote segment `Q`, a zero-indent sample line (starting with
a dash) somewhere in the remainder `R` forces an empty dedent margin, and as
long as no line of `T` is whitespace-only the stripped result keeps
`SUM ++ T ++ Q` intact, where `SUM` is the whitespace-stripped Summary prefix. -/
theorem dedent_strip_master (LA T Q R SUM : List Char)
    (hLA : '\n' ∉ LA)
    (hLAw : ∃ c ∈ LA, isTabSpace c = false)
    (hSUM : List.dropWhile pyIsWs ('\n' :: LA) = SUM) (hSUMne : SUM ≠ [])
    (q0 : List Char) (qc : Char) (hQsplit : Q = q0 ++ [qc])
    (hqc1 : pyIsWs qc = false) (hqc2 : isTabSpace qc = false) (hQn : '\n' ∉ Q)
    (X Z : List Char) (hR : R = X ++ '\n' :: '-' :: Z)
    (hT : ∀ l ∈ splitNl T, lineWsOnly l = false) :
    ∃ tail, stripChars (dedentChars ('\n' :: (LA ++ (T ++ (Q ++ '\n' :: R))))) =
      SUM ++ (T ++ (Q ++ tail)) := by
  set full : List Char := '\n' :: (LA ++ (T ++ (Q ++ '\n' :: R))) with hfull
  have hassoc1 : LA ++ (T ++ (Q ++ '\n' :: R)) = (LA ++ (T ++ Q)) ++ '\n' :: R := by
    simp [List.append_assoc]
  have hlines : splitNl full = [] :: (splitNl (LA ++ (T ++ Q)) ++ splitNl R) := by
    rw [hfull, splitNl_cons_newline, hassoc1, splitNl_newline]
  obtain ⟨init, lastl, hil1, hil2⟩ := splitNl_append_last (LA ++ T) Q hQn
  obtain ⟨z, trest, hzt, hzp⟩ := splitNl_prepend LA T hLA
  have hmidlines : ∀ l ∈ splitNl (LA ++ (T ++ Q)), lineWsOnly l = false := by
    intro l hl
    have heq : splitNl (LA ++ (T ++ Q)) = init ++ [lastl ++ Q] := by
      rw [← List.append_assoc]; exact hil2
    rw [heq] at hl
    rcases List.mem_append.1 hl with h1 | h1
    · have hmem : l ∈ (LA ++ z) :: trest := by
        rw [← hzp, hil1]; exact List.mem_append_left _ h1
      rcases List.mem_cons.1 hmem with h2 | h2
      · obtain ⟨c, hcm, hct⟩ := hLAw
        rw [h2]
        exact lineWsOnly_false_of_mem _ c (List.mem_append_left _ hcm) hct
      · exact hT l (by rw [hzt]; exact List.mem_cons_of_mem _ h2)
    · have h2 : l = lastl ++ Q := by simpa using h1
      rw [h2]
      refine lineWsOnly_false_of_mem _ qc (List.mem_append_right _ ?_) hqc2
      rw [hQsplit]
      exact List.mem_append_right _ (List.mem_singleton.2 rfl)
  obtain ⟨dz, drest, hdz⟩ := splitNl_dest Z
  have hdashsplit : splitNl ('-' :: Z) = ('-' :: dz) :: drest :=
    splitNl_cons_other '-' Z (by decide) dz drest hdz
  have hfull2 : full = ('\n' :: (LA ++ (T ++ (Q ++ '\n' :: X)))) ++ '\n' :: ('-' :: Z) := by
    rw [hfull, hR]; simp [List.append_assoc]
  have hdashmem : ('-' :: dz) ∈ splitNl full := by
    rw [hfull2, splitNl_newline, hdashsplit]
    exact List.mem_append_right _ (List.mem_cons_self _ _)
  have hdashnorm : normLine ('-' :: dz) = '-' :: dz := by
    unfold normLine
    rw [lineWsOnly_false_of_mem _ '-' (List.mem_cons_self _ _) (by decide)]
    simp
  have hmargin : (marginOf ((splitNl full).map normLine)).getD [] = [] := by
    apply margin_empty_of_zero_indent
    refine ⟨'-' :: dz, ?_, ?_, ?_⟩
    · rw [← hdashnorm]; exact List.mem_map_of_mem normLine hdashmem
    · simp [lineBlank, isTabSpace]
    · simp [wsIndent, isTabSpace]
  have hded : dedentChars full = joinNlL ((splitNl full).map normLine) := by
    simp only [dedentChars]
    rw [hmargin]
    simp
  have hnorm : (splitNl full).map normLine =
      [] :: (splitNl (LA ++ (T ++ Q)) ++ (splitNl R).map normLine) := by
    rw [hlines]
    simp only [List.map_cons, List.map_append, map_normLine_id _ hmidlines]
    rfl
  have hNRne : (splitNl R).map normLine ≠ [] := by
    simpa using splitNl_ne_nil R
  have hjoin : joinNlL ((splitNl full).map normLine) =
      '\n' :: ((LA ++ (T ++ Q)) ++ '\n' :: joinNlL ((splitNl R).map normLine)) := by
    rw [hnorm]
    rw [show (([] : List Char) :: (splitNl (LA ++ (T ++ Q)) ++ (splitNl R).map normLine))
        = [([] : List Char)] ++ (splitNl (LA ++ (T ++ Q)) ++ (splitNl R).map normLine)
      from rfl]
    rw [joinNl_append _ _ (by simp) (by simp [splitNl_ne_nil]),
      joinNl_append _ _ (splitNl_ne_nil _) hNRne, joinNl_splitNl]
    rfl
  set JNR : List Char := joinNlL ((splitNl R).map normLine) with hJNR
  have hleftassoc : dedentChars full = ('\n' :: LA) ++ ((T ++ Q) ++ '\n' :: JNR) := by
    rw [hded, hjoin]; simp [List.append_assoc]
  have hdwne : List.dropWhile pyIsWs ('\n' :: LA) ≠ [] := by
    rw [hSUM]; exact hSUMne
  have hleft : (dedentChars full).dropWhile pyIsWs =
      SUM ++ ((T ++ Q) ++ '\n' :: JNR) := by
    rw [hleftassoc, dropWhile_append_ne _ _ _ hdwne, hSUM]
  have hL1assoc : SUM ++ ((T ++ Q) ++ '\n' :: JNR) =
      (SUM ++ (T ++ q0)) ++ (qc :: ('\n' :: JNR)) := by
    rw [hQsplit]; simp [List.append_assoc]
  have hrev : ((SUM ++ (T ++ q0)) ++ (qc :: ('\n' :: JNR))).reverse =
      ('\n' :: JNR).reverse ++ (qc :: (SUM ++ (T ++ q0)).reverse) := by
    simp [List.reverse_append, List.append_assoc]
  obtain ⟨t, ht⟩ : ∃ t, List.dropWhile pyIsWs
      (('\n' :: JNR).reverse ++ (qc :: (SUM ++ (T ++ q0)).reverse)) =
      t ++ (qc :: (SUM ++ (T ++ q0)).reverse) := by
    by_cases hb : ('\n' :: JNR).reverse.dropWhile pyIsWs = []
    · refine ⟨[], ?_⟩
      rw [dropWhile_append_all _ _ _ hb,
        List.dropWhile_cons_of_neg (by simp [hqc1])]
      rfl
    · exact ⟨_, by rw [dropWhile_append_ne _ _ _ hb]⟩
  refine ⟨t.reverse, ?_⟩
  show ((stripChars (dedentChars full) : List Char)) = _
  simp only [stripChars]
  rw [hleft, hL1assoc, hrev, ht]
  rw [hQsplit]
  simp [List.reverse_append, List.append_assoc]

/-- Companion to the master lemma: the stripped dedented template is never
empty, because the zero-indent dash line survives normalisation. -/
theorem dedent_strip_master_ne (LA T Q R : List Char)
    (X Z : List Char) (hR : R = X ++ '\n' :: '-' :: Z) :
    stripChars (dedentChars ('\n' :: (LA ++ (T ++ (Q ++ '\n' :: R))))) ≠ [] := by
  set full : List Char := '\n' :: (LA ++ (T ++ (Q ++ '\n' :: R))) with hfull
  obtain ⟨dz, drest, hdz⟩ := splitNl_dest Z
  have hdashsplit : splitNl ('-' :: Z) = ('-' :: dz) :: drest :=
    splitNl_cons_other '-' Z (by decide) dz drest hdz
  have hfull2 : full = ('\n' :: (LA ++ (T ++ (Q ++ '\n' :: X)))) ++ '\n' :: ('-' :: Z) := by
    rw [hfull, hR]; simp [List.append_assoc]
  have hdashmem : ('-' :: dz) ∈ splitNl full := by
    rw [hfull2, splitNl_newline, hdashsplit]
    exact List.mem_append_right _ (List.mem_cons_self _ _)
  have hdashnorm : normLine ('-' :: dz) = '-' :: dz := by
    unfold normLine
    rw [lineWsOnly_false_of_mem _ '-' (List.mem_cons_self _ _) (by decide)]
    simp
  have hmargin : (marginOf ((splitNl full).map normLine)).getD [] = [] := by
    apply margin_empty_of_zero_indent
    refine ⟨'-' :: dz, ?_, ?_, ?_⟩
    · rw [← hdashnorm]; exact List.mem_map_of_mem normLine hdashmem
    · simp [lineBlank, isTabSpace]
    · simp [wsIndent, isTabSpace]
  have hded : dedentChars full = joinNlL ((splitNl full).map normLine) := by
    simp only [dedentChars]
    rw [hmargin]
    simp
  have hdashmem2 : ('-' :: dz) ∈ (splitNl full).map normLine := by
    rw [← hdashnorm]; exact List.mem_map_of_mem normLine hdashmem
  have hdashchar : '-' ∈ dedentChars full := by
    rw [hded]
    exact mem_joinNl _ _ _ hdashmem2 (List.mem_cons_self _ _)
  exact stripChars_ne_nil _ ⟨'-', hdashchar, by decide⟩

/-! ### The fallback template: literal segments and shape lemmas -/

/-- First template line after the leading newline (line 249 of `ai_logic.py`). -/
def fbLA : List Char := ("        Summary: Execution plan for \x27" : String).data

/-- The segment between the interpolated title and the first newline after it. -/
def fbQ : List Char := ("\x27 (local fallback, external AI unavailable)." : String).data

/-- `fbQ` without its final full stop. -/
def fbQ0 : List Char := ("\x27 (local fallback, external AI unavailable)" : String).data

/-- The first line of the stripped plan up to the title. -/
def fbSUM : List Char := ("Summary: Execution plan for \x27" : String).data

/-- Template segment from the newline after the title line up to the currency. -/
def fbR0 : List Char := ("\n        Context:\n        - Currency: " : String).data

/-- Template segment between currency and scope. -/
def fbScope : List Char := ("\n        - Scope: " : String).data

/-- Template segment introducing the steps block. -/
def fbSteps : List Char := ("\n\n        Steps:\n        " : String).data

/-- Template segment introducing the risks block. -/
def fbRisks : List Char := ("\n\n        Risks:\n        " : String).data

/-- Template segment introducing the data-needed block. -/
def fbData : List Char := ("\n\n        DataNeeded:\n        " : String).data

/-- Template segment introducing the dependencies block. -/
def fbDeps : List Char := ("\n\n        Dependencies:\n        " : String).data

/-- The closing note of the template. -/
def fbNote : List Char := ("\n\n        Note:\n        - External AI provider is currently unavailable (quota, network, or configuration issue).\n        - Used the built-in local fallback playbook tuned to this task.\n        " : String).data

/-- Everything of the template after the second rendered step item. -/
def fbTail (sB rb db dt : List Char) : List Char :=
  sB ++ (fbRisks ++ (rb ++ (fbData ++ (db ++ (fbDeps ++ (dt ++ fbNote))))))

/-- Everything of the template strictly between the title line and the newline
that precedes the second rendered `- ` step item. -/
def fbX (cur ctx sA : List Char) : List Char :=
  fbR0 ++ (cur ++ (fbScope ++ (ctx ++ (fbSteps ++ ('-' :: ' ' :: sA)))))

/-- The template suffix after the newline that ends the title line. -/
def fbR (cur ctx sA sB rb db dt : List Char) : List Char :=
  fbX cur ctx sA ++ '\n' :: '-' :: (' ' :: fbTail sB rb db dt)

/-- `True` iff some line of `s` consists only of tabs and spaces (and is
non-empty).  `textwrap.dedent` rewrites exactly these lines of the template
to empty lines, so a title with such a line cannot survive verbatim. -/
def hasWsOnlyLine (s : String) : Bool := (splitNl s.data).any lineWsOnly

theorem pyJoin_cons_head (s : String) (rest : List String) :
    ∃ t, pyJoin "\n" (("- " ++ s) :: rest) = "- " ++ t := by
  cases rest with
  | nil => exact ⟨s, rfl⟩
  | cons r rs =>
    refine ⟨s ++ "\n" ++ pyJoin "\n" (r :: rs), ?_⟩
    simp [pyJoin, String.append_assoc]

theorem pyJoin_dash_shape (s1 s2 : String) (more : List String) :
    ∃ tailStr, pyJoin "\n" ((s1 :: s2 :: more).map (fun item => "- " ++ item)) =
      ("- " ++ s1) ++ "\n" ++ ("- " ++ tailStr) := by
  obtain ⟨t, ht⟩ := pyJoin_cons_head s2 (more.map fun item => "- " ++ item)
  refine ⟨t, ?_⟩
  simp only [List.map_cons, pyJoin, ht]

theorem fallback_steps_shape (metadata : List (String × Val)) (ctx : String)
    (flags : ContextFlags) :
    ∃ more, fallback_steps metadata ctx flags =
      ("Clarify owner, deadline, and success criteria with " ++ ctx ++ ".") ::
      ("Log this task into your tracking tool with priority \x27" ++
        pyStr (pyGetD metadata "priority" (Val.vstr "normal")) ++ "\x27.") :: more := by
  simp only [fallback_steps]
  cases hd : fallback_dependencies metadata <;> dsimp only <;>
    first
      | exact ⟨_, rfl⟩
      | (split_ifs <;> exact ⟨_, rfl⟩)

theorem template_strip_props (title cur ctx sA sB rb db dt : String)
    (tmpl : String)
    (htmpl : tmpl = "\n        Summary: Execution plan for \x27" ++ title ++
      "\x27 (local fallback, external AI unavailable).\n\n        Context:\n        - Currency: " ++
      cur ++ "\n        - Scope: " ++ ctx ++ "\n\n        Steps:\n        " ++
      (("- " ++ sA) ++ "\n" ++ ("- " ++ sB)) ++ "\n\n        Risks:\n        " ++ rb ++
      "\n\n        DataNeeded:\n        " ++ db ++ "\n\n        Dependencies:\n        " ++ dt ++
      "\n\n        Note:\n        - External AI provider is currently unavailable (quota, network, or configuration issue).\n        - Used the built-in local fallback playbook tuned to this task.\n        ") :
    stripChars (dedentChars tmpl.data) ≠ [] ∧
    ((∀ l ∈ splitNl title.data, lineWsOnly l = false) →
      hasSub (stripChars (dedentChars tmpl.data)) title.data = true) := by
  have h1 : ("\n        Summary: Execution plan for \x27" : String).data =
      '\n' :: fbLA := by decide
  have h2 : ("\x27 (local fallback, external AI unavailable).\n\n        Context:\n        - Currency: " : String).data =
      fbQ ++ '\n' :: fbR0 := by decide
  have hd1 : ("- " : String).data = ['-', ' '] := by decide
  have hnl : ("\n" : String).data = ['\n'] := by decide
  have hdata : tmpl.data = '\n' :: (fbLA ++ (title.data ++ (fbQ ++ '\n' ::
      fbR cur.data ctx.data sA.data sB.data rb.data db.data dt.data))) := by
    rw [htmpl]
    simp -proj only [String.data_append, h1, h2, hd1, hnl]
    simp -proj only [fbR, fbX, fbTail, fbScope, fbSteps, fbRisks, fbData, fbDeps, fbNote,
      List.append_assoc, List.cons_append, List.nil_append]
  constructor
  · rw [hdata]
    exact dedent_strip_master_ne fbLA title.data fbQ _
      (fbX cur.data ctx.data sA.data)
      (' ' :: fbTail sB.data rb.data db.data dt.data) rfl
  · intro hT
    obtain ⟨tail, htail⟩ := dedent_strip_master fbLA title.data fbQ
      (fbR cur.data ctx.data sA.data sB.data rb.data db.data dt.data) fbSUM
      (by decide) (by decide) (by decide) (by decide)
      fbQ0 '.' (by decide) (by decide) (by decide) (by decide)
      (fbX cur.data ctx.data sA.data)
      (' ' :: fbTail sB.data rb.data db.data dt.data) rfl hT
    rw [hdata, htail]
    exact hasSub_sandwich fbSUM title.data (fbQ ++ tail)

theorem build_plan_props (title : String) (metadata : List (String × Val))
    (currency : String) :
    build_local_fallback_plan title metadata currency ≠ "" ∧
    (hasWsOnlyLine title = false →
      pyInStr title (build_local_fallback_plan title metadata currency) = true) := by
  obtain ⟨more, hmore⟩ := fallback_steps_shape metadata (fallback_context_str metadata)
    (_infer_context_flags (title ++ " " ++ pyReprDict metadata))
  obtain ⟨tailStr, hsb⟩ := pyJoin_dash_shape
    ("Clarify owner, deadline, and success criteria with " ++
      fallback_context_str metadata ++ ".")
    ("Log this task into your tracking tool with priority \x27" ++
      pyStr (pyGetD metadata "priority" (Val.vstr "normal")) ++ "\x27.") more
  simp only [build_local_fallback_plan]
  rw [hmore, hsb]
  have hprops := template_strip_props title (_infer_currency metadata currency)
    (fallback_context_str metadata)
    ("Clarify owner, deadline, and success criteria with " ++
      fallback_context_str metadata ++ ".")
    tailStr
    (pyJoin "\n" ((fallback_risks
      (_infer_context_flags (title ++ " " ++ pyReprDict metadata))).map
        fun item => "- " ++ item))
    (pyJoin "\n" ((fallback_data_needed
      (_infer_context_flags (title ++ " " ++ pyReprDict metadata))
      (_infer_currency metadata currency)).map fun item => "- " ++ item))
    (fallback_dependencies_text metadata) _ rfl
  have hps : ∀ s : String, (pyStrip (pyDedent s)).data = stripChars (dedentChars s.data) :=
    fun _ => rfl
  have hpi : ∀ n h : String, pyInStr n h = hasSub h.data n.data := fun _ _ => rfl
  have hempty : ("" : String).data = [] := rfl
  constructor
  · intro hcontra
    have hc2 := congrArg String.data hcontra
    rw [hps, hempty] at hc2
    exact hprops.1 hc2
  · intro hws
    have hT : ∀ l ∈ splitNl title.data, lineWsOnly l = false := by
      intro l hl
      simp only [hasWsOnlyLine] at hws
      have h2 := List.any_eq_false.mp hws l hl
      simpa using h2
    rw [hpi, hps]
    exact hprops.2 hT

set_option maxRecDepth 100000 in
/-- C7 counterexample: for the title "a\n \nb" (whose middle line is a single
space) and a provider error containing "429", `run_ai_coo_logic` classifies the
failure as `fallback_insufficient_quota`, but the fallback plan does NOT
contain the title verbatim: `textwrap.dedent` rewrites the whitespace-only
line that the interpolated title contributes to the template into an empty
line, so the claimed containment fails. -/
theorem run_ai_fallback_title_counterexample :
    (run_ai_coo_logic "a\n \nb" [] (.error "Rate limit: 429")).2 =
      "fallback_insufficient_quota" ∧
    pyInStr "a\n \nb"
      (run_ai_coo_logic "a\n \nb" [] (.error "Rate limit: 429")).1 = false := by
  constructor
  · rfl
  · rfl

/-- C7 (amended): on any provider error `run_ai_coo_logic` never propagates
it: the status is `fallback_insufficient_quota` exactly when the error text
contains "insufficient_quota" or "429" and `fallback_error` otherwise, and the
returned plan is the local fallback text, which is never empty; moreover the
plan contains the task title verbatim whenever no line of the title consists
solely of tabs and spaces (`textwrap.dedent` blanks such lines inside the
template, so titles containing a whitespace-only line are the only
exception). -/
theorem run_ai_coo_fallback (title : String) (metadata : List (String × Val))
    (err : String) :
    (run_ai_coo_logic title metadata (.error err)).2 =
      (if pyInStr "insufficient_quota" err || pyInStr "429" err then
        "fallback_insufficient_quota" else "fallback_error") ∧
    (run_ai_coo_logic title metadata (.error err)).1 ≠ "" ∧
    (hasWsOnlyLine title = false →
      pyInStr title (run_ai_coo_logic title metadata (.error err)).1 = true) := by
  have h := build_plan_props title metadata "INR"
  exact ⟨rfl, h.1, h.2⟩

/-- The amended C7 theorem applied at a concrete quota-style failure. -/
theorem run_ai_coo_fallback_witness :
    hasWsOnlyLine "Fix checkout flow" = false ∧
    pyInStr "Fix checkout flow"
      (run_ai_coo_logic "Fix checkout flow" [] (.error "insufficient_quota")).1 =
      true :=
  ⟨by decide,
    (run_ai_coo_fallback "Fix checkout flow" [] "insufficient_quota").2.2
      (by decide)⟩
